import Mathlib

/-!
# Verification of the website-marketing simulation core

Shallow embedding, in Lean 4, of the core components of the
`website-marketing-simulation` repository:

* the logistic conversion model (`sim/features/conversion/service.py`),
* the users hot-state store (`sim/features/users_state/service.py`),
* the per-session page-traversal state machine (`sim/features/sessions/service.py`),
* the NHPP baseline arrivals model (`sim/features/arrivals/models/nhpp.py`),
* the persistence buffer (`sim/features/persistence/service.py`),
* the JSON payload encoders (`sim/features/events/schema.py` and the
  persistence row conversion),
* a model of the cooperative scheduler and the composed run
  (`sim/features/bootstrap/service.py`).

Numeric code is embedded generically over a `LinearOrderedField`, with the
transcendental functions of the host math library (`math.exp`, `math.log`)
abstracted into a `MathKernel` record; statements that need the actual
exponential instantiate the kernel at `ℝ` with `Real.exp` / `Real.log`.
-/

namespace Sim

/-- Abstract kernel of transcendental functions.  Models the host language's
math library (`math.exp`, `math.log`), which is external to the repository.
Components that use it are stated either for an arbitrary kernel (when the
property does not depend on the analytic behaviour) or for `realKernel`. -/
structure MathKernel (α : Type) where
  exp : α → α
  log : α → α

/-- The kernel instantiated with the real exponential and logarithm. -/
noncomputable def realKernel : MathKernel ℝ :=
  ⟨Real.exp, Real.log⟩

/-- Python's `str.lower()` (on the ASCII names used by the configs). -/
def pyLower (s : String) : String :=
  String.mk (s.data.map Char.toLower)

/-- Whitespace as stripped by Python's `str.strip()`. -/
def isPySpace (c : Char) : Bool :=
  c == ' ' || c == '\t' || c == '\n' || c == '\r'

/-- Python's `str.strip()`. -/
def pyStrip (s : String) : String :=
  String.mk (((s.data.dropWhile isPySpace).reverse.dropWhile isPySpace).reverse)

variable {α : Type} [LinearOrderedField α]

/-- Python clamp idiom `0.0 if p < 0.0 else 1.0 if p > 1.0 else p`
(used in `ConversionService.probability`). -/
def clamp01 (p : α) : α :=
  if p < 0 then 0 else if p > 1 then 1 else p

/-- Python clamp idiom `max(0.0, min(1.0, x))` (used for drop-off
probabilities and for the propensity score). -/
def clampMax01 (x : α) : α :=
  max 0 (min 1 x)

-- ----------------------------------------------------------------
-- Conversion model (sim/features/conversion/service.py)
-- ----------------------------------------------------------------

/-- `ConversionConfig` from `conversion/service.py`. -/
structure ConversionConfig (α : Type) where
  model : String
  cap : α
  base_logit : α
  propensity_coef : α

/-- The validation performed by `ConversionService.__init__`: the model name
(lower-cased, stripped) must be `"logistic"` and the cap must lie in `[0, 1]`;
otherwise a `ValueError` is raised. -/
def ConversionService.validate (cfg : ConversionConfig α) : Except String Unit :=
  if pyLower (pyStrip cfg.model) ≠ "logistic" then
    .error "Unsupported conversion.model"
  else if ¬ (0 ≤ cfg.cap ∧ cfg.cap ≤ 1) then
    .error "conversion.cap must be in [0, 1]"
  else
    .ok ()

/-- `ConversionService._sigmoid`: numerically stable sigmoid, with the same
branch structure as the source. -/
def sigmoid (K : MathKernel α) (x : α) : α :=
  if x ≥ 0 then 1 / (1 + K.exp (-x)) else K.exp x / (1 + K.exp x)

/-- `ConversionService.probability`: clamp the propensity to `[0,1]`, form the
logit, apply the sigmoid, cap the result, and clamp defensively to `[0,1]`. -/
def ConversionService.probability (K : MathKernel α) (cfg : ConversionConfig α)
    (propensity logit_shift : α) : α :=
  let p := clamp01 propensity
  let logit := cfg.base_logit + cfg.propensity_coef * p + logit_shift
  let prob := sigmoid K logit
  let prob2 := if prob > cfg.cap then cfg.cap else prob
  clamp01 prob2

/-- `ConversionService.should_convert`: compute the probability, draw `u`, and
convert exactly when `u < prob`. -/
def ConversionService.should_convert (K : MathKernel α) (cfg : ConversionConfig α)
    (propensity logit_shift u : α) : Bool × α :=
  let prob := ConversionService.probability K cfg propensity logit_shift
  (decide (u < prob), prob)

/-- The sigmoid over `ℝ` (both source branches agree with the canonical
closed form). -/
noncomputable def sigmoidR (x : ℝ) : ℝ :=
  sigmoid realKernel x

theorem sigmoidR_eq (x : ℝ) : sigmoidR x = 1 / (1 + Real.exp (-x)) := by
  unfold sigmoidR sigmoid realKernel
  by_cases h : x ≥ 0
  · simp [h]
  · simp only [h, if_false]
    rw [Real.exp_neg]
    have hx := (Real.exp_pos x).ne'
    field_simp
    ring

theorem one_add_exp_neg_pos (x : ℝ) : 0 < 1 + Real.exp (-x) := by
  have := Real.exp_pos (-x); linarith

theorem sigmoidR_pos (x : ℝ) : 0 < sigmoidR x := by
  rw [sigmoidR_eq]
  exact div_pos one_pos (one_add_exp_neg_pos x)

theorem sigmoidR_lt_one (x : ℝ) : sigmoidR x < 1 := by
  rw [sigmoidR_eq]
  have h := one_add_exp_neg_pos x
  rw [div_lt_one h]
  have := Real.exp_pos (-x); linarith

theorem sigmoidR_strictMono {x y : ℝ} (h : x < y) : sigmoidR x < sigmoidR y := by
  rw [sigmoidR_eq, sigmoidR_eq]
  have hxy : Real.exp (-y) < Real.exp (-x) := Real.exp_lt_exp.mpr (by linarith)
  have hy := one_add_exp_neg_pos y
  apply one_div_lt_one_div_of_lt hy
  linarith

/-- For a cap in `[0,1]`, the probability function reduces to
`min (sigmoid logit) cap`. -/
theorem probability_eq_min (cfg : ConversionConfig ℝ)
    (h0 : 0 ≤ cfg.cap) (h1 : cfg.cap ≤ 1) (propensity logit_shift : ℝ) :
    ConversionService.probability realKernel cfg propensity logit_shift =
      min (sigmoidR (cfg.base_logit + cfg.propensity_coef * clamp01 propensity + logit_shift))
        cfg.cap := by
  unfold ConversionService.probability
  set L := cfg.base_logit + cfg.propensity_coef * clamp01 propensity + logit_shift with hL
  have hs0 : 0 < sigmoidR L := sigmoidR_pos L
  have hs1 : sigmoidR L < 1 := sigmoidR_lt_one L
  show clamp01 (if sigmoidR L > cfg.cap then cfg.cap else sigmoidR L) = _
  by_cases h : sigmoidR L > cfg.cap
  · rw [if_pos h, min_eq_right (le_of_lt h)]
    unfold clamp01
    rw [if_neg (not_lt.mpr h0), if_neg (not_lt.mpr h1)]
  · rw [if_neg h, min_eq_left (not_lt.mp h)]
    unfold clamp01
    rw [if_neg (not_lt.mpr hs0.le), if_neg (not_lt.mpr hs1.le)]

theorem clamp01_zero : clamp01 (0 : ℝ) = 0 := by norm_num [clamp01]

theorem clamp01_one : clamp01 (1 : ℝ) = 1 := by norm_num [clamp01]

/-- **C5** (amended).  For the logistic conversion model with `cap ∈ [0,1]`:
the returned probability never exceeds the configured cap; whenever
`propensity_coef > 0` *and the cap does not already bind at propensity 0*
(`sigmoid base_logit < cap`), the probability at propensity 1 strictly exceeds
the probability at propensity 0; and a negative `logit_shift` strictly
decreases the probability *whenever the shifted sigmoid lies below the cap*.
(The strict inequalities of the original claim fail when the cap binds.) -/
theorem C5_logistic_conversion_theorem (cfg : ConversionConfig ℝ)
    (h0 : 0 ≤ cfg.cap) (h1 : cfg.cap ≤ 1) :
    (∀ p s, ConversionService.probability realKernel cfg p s ≤ cfg.cap) ∧
    (0 < cfg.propensity_coef → sigmoidR cfg.base_logit < cfg.cap →
      ConversionService.probability realKernel cfg 0 0 <
        ConversionService.probability realKernel cfg 1 0) ∧
    (∀ p s, s < 0 →
      sigmoidR (cfg.base_logit + cfg.propensity_coef * clamp01 p + s) < cfg.cap →
      ConversionService.probability realKernel cfg p s <
        ConversionService.probability realKernel cfg p 0) := by
  refine ⟨?_, ?_, ?_⟩
  · intro p s
    rw [probability_eq_min cfg h0 h1]
    exact min_le_right _ _
  · intro hcoef hs0
    rw [probability_eq_min cfg h0 h1, probability_eq_min cfg h0 h1,
      clamp01_zero, clamp01_one]
    have e0 : cfg.base_logit + cfg.propensity_coef * 0 + 0 = cfg.base_logit := by ring
    rw [e0, min_eq_left hs0.le]
    have hmono : sigmoidR cfg.base_logit <
        sigmoidR (cfg.base_logit + cfg.propensity_coef * 1 + 0) := by
      apply sigmoidR_strictMono; linarith
    exact lt_min hmono hs0
  · intro p s hs hlt
    rw [probability_eq_min cfg h0 h1, probability_eq_min cfg h0 h1,
      min_eq_left hlt.le]
    have hmono : sigmoidR (cfg.base_logit + cfg.propensity_coef * clamp01 p + s) <
        sigmoidR (cfg.base_logit + cfg.propensity_coef * clamp01 p + 0) := by
      apply sigmoidR_strictMono; linarith
    exact lt_min hmono hlt

/-- **C5** counterexample to the claim as stated: with the valid configuration
`cap = 0`, `base_logit = 0`, `propensity_coef = 2` (cap within `[0,1]`,
positive coefficient) the probability at propensity 1 does *not* strictly
exceed the probability at propensity 0 — both are capped to `0`. -/
theorem C5_counterexample :
    (0 : ℝ) ≤ (0 : ℝ) ∧ (0 : ℝ) ≤ (1 : ℝ) ∧ (0 : ℝ) < (2 : ℝ) ∧
    ¬ (ConversionService.probability realKernel ⟨"logistic", 0, 0, 2⟩ 0 0 <
        ConversionService.probability realKernel ⟨"logistic", 0, 0, 2⟩ 1 0) := by
  refine ⟨le_refl 0, by norm_num, by norm_num, ?_⟩
  have e1 : ConversionService.probability realKernel
      (⟨"logistic", 0, 0, 2⟩ : ConversionConfig ℝ) 0 0 = 0 := by
    rw [probability_eq_min _ le_rfl zero_le_one]
    exact min_eq_right (sigmoidR_pos _).le
  have e2 : ConversionService.probability realKernel
      (⟨"logistic", 0, 0, 2⟩ : ConversionConfig ℝ) 1 0 = 0 := by
    rw [probability_eq_min _ le_rfl zero_le_one]
    exact min_eq_right (sigmoidR_pos _).le
  rw [e1, e2]
  exact lt_irrefl 0

/-- Witness for `C5_logistic_conversion_theorem` at the repository's default
configuration `cap = 0.35`, `base_logit = -3`, `propensity_coef = 2`. -/
theorem C5_logistic_conversion_witness :
    ((0 : ℝ) ≤ (7/20 : ℝ) ∧ (7/20 : ℝ) ≤ 1) ∧
    ((∀ p s, ConversionService.probability realKernel ⟨"logistic", 7/20, -3, 2⟩ p s ≤
        (7/20 : ℝ)) ∧
    (0 < (2 : ℝ) → sigmoidR (-3) < (7/20 : ℝ) →
      ConversionService.probability realKernel ⟨"logistic", 7/20, -3, 2⟩ 0 0 <
        ConversionService.probability realKernel ⟨"logistic", 7/20, -3, 2⟩ 1 0) ∧
    (∀ p s, s < 0 →
      sigmoidR ((-3) + 2 * clamp01 p + s) < (7/20 : ℝ) →
      ConversionService.probability realKernel ⟨"logistic", 7/20, -3, 2⟩ p s <
        ConversionService.probability realKernel ⟨"logistic", 7/20, -3, 2⟩ p 0)) :=
  ⟨⟨by norm_num, by norm_num⟩,
    C5_logistic_conversion_theorem ⟨"logistic", 7/20, -3, 2⟩ (by norm_num) (by norm_num)⟩

-- ----------------------------------------------------------------
-- RNG service (sim/core/rng.py) and weighted choice
-- ----------------------------------------------------------------

/-- Modelled from the spec: the repository's `RNG` service (`sim/core/rng.py`)
wraps Python's seeded `random.Random`, which is external to the repository;
§4.2 specifies a single seeded deterministic pseudo-random source.  We model
the wrapped generator as a deterministic stream of uniform draws indexed by
consumption order. -/
structure Rng (α : Type) where
  stream : ℕ → α
  pos : ℕ

/-- `RNG.random()`: return the next draw and advance the stream position. -/
def Rng.random (r : Rng α) : α × Rng α :=
  (r.stream r.pos, ⟨r.stream, r.pos + 1⟩)

/-- A stream whose draws all lie in `[0,1)` (the documented contract of
`random()`). -/
def Rng.Uniform (r : Rng α) : Prop :=
  ∀ i, 0 ≤ r.stream i ∧ r.stream i < 1

/-- Cumulative sums of a weight list (the `cum_weights` of `random.choices`). -/
def cums (acc : α) : List α → List α
  | [] => []
  | w :: ws => (acc + w) :: cums (acc + w) ws

/-- Modelled from the spec / the documented CPython algorithm of
`random.choices` (external): for `k = 1` the chosen index is
`bisect_right(cum_weights, u * total, 0, n - 1)`, i.e. the number of entries
among the first `n - 1` cumulative weights that are `≤` the target. -/
def choicesIdx (cw : List α) (y : α) : ℕ :=
  (cw.dropLast.filter (fun c => decide (c ≤ y))).length

-- ----------------------------------------------------------------
-- Users hot state (sim/features/users_state/service.py)
-- ----------------------------------------------------------------

/-- `UsersSelectionConfig` from `users_state/service.py`. -/
structure UsersSelectionConfig (α : Type) where
  mode : String
  recency_half_life_hours : α
  propensity_weight : α
  recency_weight : α

/-- `DiscoveryModeConfig` from `users_state/service.py`. -/
structure DiscoveryModeConfig (α : Type) where
  enabled : Bool
  graduation_sessions : ℤ
  dropoff_multiplier : α
  conversion_logit_shift : α

/-- `UsersConfig` from `users_state/service.py` (the propensity-init
distribution is abstracted into the sampler argument of `create_user`). -/
structure UsersConfig (α : Type) where
  new_user_share : α
  selection : UsersSelectionConfig α
  discovery_mode : DiscoveryModeConfig α

/-- `UserState` from `users_state/service.py`; timestamps are modelled as
seconds (a linearly ordered field value) rather than `datetime`. -/
structure UserState (α : Type) where
  user_id : String
  created_ts : α
  last_seen_ts : α
  sessions_count : ℕ
  propensity : α
  discovery_mode : Bool
  discovery_sessions_count : ℕ
  discovery_dropoff_multiplier : α
  discovery_conversion_logit_shift : α

/-- The mutable state of `UsersStateService`: the `users` dict in insertion
order plus the `_next_user_seq` counter. -/
structure UsersState (α : Type) where
  users : List (UserState α)
  next_user_seq : ℕ

/-- Big-endian decimal digit characters of `n` (empty for `n = 0`). -/
def natDigitsBE (n : ℕ) : List Char :=
  ((Nat.digits 10 n).map Nat.digitChar).reverse

/-- Zero-pad on the left to width 10: the Python format `f"{n:010d}"`. -/
def padZeros10 (cs : List Char) : List Char :=
  List.replicate (10 - cs.length) '0' ++ cs

/-- The id format `f"u_{seq:010d}"` of `UsersStateService._create_user`. -/
def userIdOf (seq : ℕ) : String :=
  String.mk ('u' :: '_' :: padZeros10 (natDigitsBE seq))

/-- `UsersStateService._create_user`: bump the sequence counter, build the new
user (propensity drawn by the configured sampler — `_init_propensity`,
abstracted here as `sampleProp`), and append it to the store. -/
def UsersStateService.create_user (cfg : UsersConfig α)
    (sampleProp : Rng α → α × Rng α) (s : UsersState α) (now : α) (rng : Rng α) :
    UserState α × UsersState α × Rng α :=
  let seq := s.next_user_seq + 1
  let prop := (sampleProp rng).1
  let rng' := (sampleProp rng).2
  let u : UserState α :=
    ⟨userIdOf seq, now, now, 0, prop, cfg.discovery_mode.enabled, 0,
      cfg.discovery_mode.dropoff_multiplier, cfg.discovery_mode.conversion_logit_shift⟩
  (u, ⟨s.users ++ [u], seq⟩, rng')

/-- `UsersStateService._weight`: recency decay (half-life form, half-life
clamped below by `1e-9`, age clamped at `0`) plus clamped propensity, the sum
clamped at `0`. -/
def UsersStateService.weight (K : MathKernel α) (sel : UsersSelectionConfig α)
    (u : UserState α) (now : α) : α :=
  let half_life_h := max sel.recency_half_life_hours (1 / 10 ^ 9)
  let age_s := max 0 (now - u.last_seen_ts)
  let age_h := age_s / 3600
  let recency_score := K.exp (-(K.log 2) * (age_h / half_life_h))
  let propensity_score := clampMax01 u.propensity
  max 0 (sel.recency_weight * recency_score + sel.propensity_weight * propensity_score)

/-- `UsersStateService.select_existing_user`: `None` when the store is empty;
a `ValueError` for an unsupported selection mode; a uniform pick when the
weight sum is `≤ 0`; otherwise one weighted draw (`rng.choices`, `k = 1`).
Out-of-range indices (impossible for draws in `[0,1)`) fall back to the first
candidate. -/
def UsersStateService.select_existing_user [FloorRing α] (K : MathKernel α)
    (cfg : UsersConfig α) (s : UsersState α) (now : α) (rng : Rng α) :
    Except String (Option (UserState α) × Rng α) :=
  match s.users with
  | [] => .ok (none, rng)
  | u0 :: _ =>
    if pyLower (pyStrip cfg.selection.mode) ≠ "recency_propensity_weighted" then
      .error "Unsupported users.selection.mode"
    else
      let candidates := s.users
      let weights := candidates.map (fun u => UsersStateService.weight K cfg.selection u now)
      if weights.sum ≤ 0 then
        let (u, rng') := rng.random
        .ok (some (candidates.getD (⌊u * (candidates.length : α)⌋).toNat u0), rng')
      else
        let (u, rng') := rng.random
        .ok (some (candidates.getD (choicesIdx (cums 0 weights) (u * weights.sum)) u0), rng')

/-- `UsersStateService.get_or_create_user_for_intent`: if no users exist,
always create; otherwise draw `u`, create when `u < new_user_share`, else
select an existing user (with the source's defensive fallback to creation if
selection returns `None`). -/
def UsersStateService.get_or_create_user_for_intent [FloorRing α] (K : MathKernel α)
    (cfg : UsersConfig α) (sampleProp : Rng α → α × Rng α) (s : UsersState α)
    (now : α) (rng : Rng α) :
    Except String ((UserState α × Bool) × UsersState α × Rng α) :=
  match s.users with
  | [] =>
    let (u, s', rng') := UsersStateService.create_user cfg sampleProp s now rng
    .ok ((u, true), s', rng')
  | _ :: _ =>
    let (d, rng₁) := rng.random
    if d < cfg.new_user_share then
      let (u, s', rng₂) := UsersStateService.create_user cfg sampleProp s now rng₁
      .ok ((u, true), s', rng₂)
    else
      match UsersStateService.select_existing_user K cfg s now rng₁ with
      | .error e => .error e
      | .ok (some u, rng₂) => .ok ((u, false), s, rng₂)
      | .ok (none, rng₂) =>
        let (u, s', rng₃) := UsersStateService.create_user cfg sampleProp s now rng₂
        .ok ((u, true), s', rng₃)

/-- `UsersStateService.mark_session_end` applied to one user record: update
`last_seen`, bump the session counters, and clear discovery mode once the
graduation threshold is reached. -/
def updateOnSessionEnd (cfg : UsersConfig α) (now : α) (u : UserState α) : UserState α :=
  let u1 := { u with last_seen_ts := now, sessions_count := u.sessions_count + 1 }
  if u1.discovery_mode then
    let dsc := u1.discovery_sessions_count + 1
    let grad := cfg.discovery_mode.graduation_sessions
    if 0 < grad ∧ grad ≤ (dsc : ℤ) then
      { u1 with discovery_sessions_count := dsc, discovery_mode := false }
    else
      { u1 with discovery_sessions_count := dsc }
  else u1

/-- `UsersStateService.mark_session_end`: unknown ids are a fatal error,
otherwise the matching record is updated in place. -/
def UsersStateService.mark_session_end (cfg : UsersConfig α) (s : UsersState α)
    (user_id : String) (now : α) : Except String (UsersState α) :=
  if s.users.all (fun u => u.user_id ≠ user_id) then
    .error "Unknown user_id"
  else
    .ok ⟨s.users.map (fun u =>
      if u.user_id = user_id then updateOnSessionEnd cfg now u else u),
      s.next_user_seq⟩

/-- Repeated intent resolution: `n` successive calls of
`get_or_create_user_for_intent`, the `k`-th at time `nows k`, threading store
and RNG. -/
def iterateResolve [FloorRing α] (K : MathKernel α) (cfg : UsersConfig α)
    (sampleProp : Rng α → α × Rng α) (nows : ℕ → α) :
    ℕ → ℕ → UsersState α → Rng α →
    Except String (List (UserState α × Bool) × UsersState α × Rng α)
  | _, 0, s, rng => .ok ([], s, rng)
  | k, Nat.succ n, s, rng =>
    match UsersStateService.get_or_create_user_for_intent K cfg sampleProp s (nows k) rng with
    | .error e => .error e
    | .ok (r, s', rng') =>
      match iterateResolve K cfg sampleProp nows (k + 1) n s' rng' with
      | .error e => .error e
      | .ok (rs, s'', rng'') => .ok (r :: rs, s'', rng'')

-- Injectivity of the `u_{seq:010d}` id format --------------------------------

theorem digitChar_inj {a b : ℕ} (ha : a < 10) (hb : b < 10)
    (h : Nat.digitChar a = Nat.digitChar b) : a = b := by
  interval_cases a <;> interval_cases b <;> revert h <;> decide

theorem mapDigitChar_inj : ∀ {l₁ l₂ : List ℕ}, (∀ x ∈ l₁, x < 10) →
    (∀ x ∈ l₂, x < 10) → l₁.map Nat.digitChar = l₂.map Nat.digitChar → l₁ = l₂
  | [], [], _, _, _ => rfl
  | [], _ :: _, _, _, h => by simp at h
  | _ :: _, [], _, _, h => by simp at h
  | a :: l₁, b :: l₂, h₁, h₂, h => by
    simp only [List.map_cons, List.cons.injEq] at h
    have hab := digitChar_inj (h₁ a (by simp)) (h₂ b (by simp)) h.1
    have htl := mapDigitChar_inj (fun x hx => h₁ x (by simp [hx]))
      (fun x hx => h₂ x (by simp [hx])) h.2
    simp [hab, htl]

theorem natDigitsBE_inj {n m : ℕ} (h : natDigitsBE n = natDigitsBE m) : n = m := by
  unfold natDigitsBE at h
  have h' := congrArg List.reverse h
  simp only [List.reverse_reverse] at h'
  have h'' := mapDigitChar_inj (fun x hx => Nat.digits_lt_base (by norm_num) hx)
    (fun x hx => Nat.digits_lt_base (by norm_num) hx) h'
  exact Nat.digits.injective 10 h''

theorem natDigitsBE_head {n : ℕ} (hn : n ≠ 0) :
    ∃ c t, natDigitsBE n = c :: t ∧ (c == '0') = false := by
  have hne : Nat.digits 10 n ≠ [] := Nat.digits_ne_nil_iff_ne_zero.mpr hn
  refine ⟨Nat.digitChar ((Nat.digits 10 n).getLast hne),
    (((Nat.digits 10 n).dropLast).map Nat.digitChar).reverse, ?_, ?_⟩
  · unfold natDigitsBE
    conv_lhs => rw [← List.dropLast_append_getLast hne]
    simp
  · have h0 : (Nat.digits 10 n).getLast hne ≠ 0 := Nat.getLast_digit_ne_zero 10 hn
    have h10 : (Nat.digits 10 n).getLast hne < 10 :=
      Nat.digits_lt_base (by norm_num) (List.getLast_mem hne)
    revert h0 h10
    generalize (Nat.digits 10 n).getLast hne = d
    intro h0 h10
    interval_cases d <;> first | exact absurd rfl h0 | decide

theorem dropWhile_replicate_append (p : Char → Bool) (a : Char) (hp : p a = true)
    (k : ℕ) (l : List Char) :
    List.dropWhile p (List.replicate k a ++ l) = List.dropWhile p l := by
  induction k with
  | zero => simp
  | succ k ih => simp [List.replicate_succ, List.dropWhile_cons, hp, ih]

theorem strip_padZeros10 (n : ℕ) :
    List.dropWhile (fun c => c == '0') (padZeros10 (natDigitsBE n)) = natDigitsBE n := by
  unfold padZeros10
  rw [dropWhile_replicate_append _ _ (by decide)]
  by_cases hn : n = 0
  · subst hn
    simp [natDigitsBE]
  · obtain ⟨c, t, hct, hc⟩ := natDigitsBE_head hn
    rw [hct, List.dropWhile_cons, hc]
    simp

theorem userIdOf_inj {n m : ℕ} (h : userIdOf n = userIdOf m) : n = m := by
  unfold userIdOf at h
  have h' := congrArg String.data h
  simp only [List.cons.injEq, true_and] at h'
  have h'' := congrArg (List.dropWhile (fun c => c == '0')) h'
  rw [strip_padZeros10, strip_padZeros10] at h''
  exact natDigitsBE_inj h''

-- C7: select_existing_user against the specification's wording ----------------

/-- The per-user weight exactly as the specification words it:
`recency_weight · exp(−ln2 · age_hours/half_life_hours) +
 propensity_weight · clamp(propensity, 0, 1)` with `age_hours` the time since
the user's `last_seen_ts_utc`. -/
noncomputable def specWeight (sel : UsersSelectionConfig ℝ) (u : UserState ℝ)
    (now : ℝ) : ℝ :=
  sel.recency_weight *
      Real.exp (-(Real.log 2) *
        (((now - u.last_seen_ts) / 3600) / sel.recency_half_life_hours)) +
    sel.propensity_weight * clampMax01 u.propensity

/-- `select_existing` exactly as the specification words it: per-user weights
by the spec formula; if the sum of weights is `≤ 0`, a uniform pick over the
existing users; otherwise one user drawn by weighted sampling. -/
noncomputable def selectExistingSpec (cfg : UsersConfig ℝ) (s : UsersState ℝ)
    (now : ℝ) (rng : Rng ℝ) : Option (UserState ℝ) × Rng ℝ :=
  match s.users with
  | [] => (none, rng)
  | u0 :: _ =>
    let weights := s.users.map (fun u => specWeight cfg.selection u now)
    if weights.sum ≤ 0 then
      let (u, rng') := rng.random
      (some (s.users.getD (⌊u * (s.users.length : ℝ)⌋).toNat u0), rng')
    else
      let (u, rng') := rng.random
      (some (s.users.getD (choicesIdx (cums 0 weights) (u * weights.sum)) u0), rng')

theorem weight_eq_specWeight (sel : UsersSelectionConfig ℝ) (u : UserState ℝ) (now : ℝ)
    (hr : 0 ≤ sel.recency_weight) (hp : 0 ≤ sel.propensity_weight)
    (hl : 1 / 10 ^ 9 ≤ sel.recency_half_life_hours)
    (hage : u.last_seen_ts ≤ now) :
    UsersStateService.weight realKernel sel u now = specWeight sel u now := by
  unfold UsersStateService.weight specWeight realKernel
  simp only
  rw [max_eq_left hl, max_eq_right (by linarith : (0 : ℝ) ≤ now - u.last_seen_ts)]
  apply max_eq_right
  have h1 := (Real.exp_pos
    (-(Real.log 2) * ((now - u.last_seen_ts) / 3600 / sel.recency_half_life_hours))).le
  have h2 : (0 : ℝ) ≤ clampMax01 u.propensity := le_max_left 0 _
  have := mul_nonneg hr h1
  have := mul_nonneg hp h2
  linarith

/-- **C7**.  Under a valid configuration (the configured selection mode, with
nonnegative selection weights, a half-life of at least `1e-9` hours, and no
user seen in the future), `select_existing_user` assigns every existing user
exactly the specification's weight and behaves exactly as the specification
describes: uniform fallback when the weight sum is `≤ 0`, otherwise one
weighted draw. -/
theorem C7_select_existing_theorem (cfg : UsersConfig ℝ) (s : UsersState ℝ)
    (now : ℝ) (rng : Rng ℝ)
    (hm : cfg.selection.mode = "recency_propensity_weighted")
    (hr : 0 ≤ cfg.selection.recency_weight) (hp : 0 ≤ cfg.selection.propensity_weight)
    (hl : 1 / 10 ^ 9 ≤ cfg.selection.recency_half_life_hours)
    (hage : ∀ u ∈ s.users, u.last_seen_ts ≤ now) :
    (∀ u ∈ s.users,
      UsersStateService.weight realKernel cfg.selection u now = specWeight cfg.selection u now) ∧
    UsersStateService.select_existing_user realKernel cfg s now rng =
      .ok (selectExistingSpec cfg s now rng) := by
  have hw : ∀ u ∈ s.users,
      UsersStateService.weight realKernel cfg.selection u now = specWeight cfg.selection u now :=
    fun u hu => weight_eq_specWeight cfg.selection u now hr hp hl (hage u hu)
  refine ⟨hw, ?_⟩
  unfold UsersStateService.select_existing_user selectExistingSpec
  cases hus : s.users with
  | nil => rfl
  | cons u0 rest =>
    have hmode : ¬ pyLower (pyStrip cfg.selection.mode) ≠ "recency_propensity_weighted" := by
      rw [hm]; decide
    have hmap : s.users.map (fun u => UsersStateService.weight realKernel cfg.selection u now) =
        s.users.map (fun u => specWeight cfg.selection u now) :=
      List.map_congr_left hw
    rw [hus] at hmap
    dsimp only [Rng.random]
    rw [if_neg hmode, hmap]
    split_ifs <;> rfl

-- C6: get_or_create_user_for_intent ------------------------------------------

theorem floor_toNat_eq_zero [FloorRing α] {u : α} (h0 : 0 ≤ u) (h1 : u < 1) :
    (⌊u⌋).toNat = 0 := by
  have h : ⌊u⌋ = 0 := by
    rw [Int.floor_eq_zero_iff]
    exact Set.mem_Ico.mpr ⟨h0, h1⟩
  simp [h]

/-- With `new_user_share = 0`, a valid mode, draws in `[0,1)` and a single
stored user, one resolution returns exactly that user, marks it as existing,
leaves the store unchanged and consumes two draws. -/
theorem get_or_create_single_share0 [FloorRing α] (K : MathKernel α) (cfg : UsersConfig α)
    (sampleProp : Rng α → α × Rng α) (u0 : UserState α) (seq : ℕ) (now : α) (rng : Rng α)
    (hshare : cfg.new_user_share = 0)
    (hm : cfg.selection.mode = "recency_propensity_weighted")
    (hu : rng.Uniform) :
    UsersStateService.get_or_create_user_for_intent K cfg sampleProp ⟨[u0], seq⟩ now rng =
      .ok ((u0, false), ⟨[u0], seq⟩, ⟨rng.stream, rng.pos + 2⟩) := by
  unfold UsersStateService.get_or_create_user_for_intent
  dsimp only [Rng.random]
  rw [hshare, if_neg (not_lt.mpr (hu rng.pos).1)]
  unfold UsersStateService.select_existing_user
  dsimp only [Rng.random]
  rw [if_neg (by rw [hm]; decide)]
  have hfloor : (⌊rng.stream (rng.pos + 1) *
      (([u0] : List (UserState α)).length : α)⌋).toNat = 0 := by
    have e1 : (([u0] : List (UserState α)).length : α) = 1 := by norm_num
    rw [e1, mul_one]
    exact floor_toNat_eq_zero (hu _).1 (hu _).2
  split_ifs with hsum
  · simp [hfloor]
  · simp [choicesIdx, cums]

/-- With `new_user_share = 0`, a valid mode, uniform draws and a single stored
user, every one of `n` repeated resolutions returns that same user. -/
theorem iterate_share0 [FloorRing α] (K : MathKernel α) (cfg : UsersConfig α)
    (sampleProp : Rng α → α × Rng α) (nows : ℕ → α)
    (hshare : cfg.new_user_share = 0)
    (hm : cfg.selection.mode = "recency_propensity_weighted")
    (u0 : UserState α) (seq : ℕ) :
    ∀ (n k : ℕ) (rng : Rng α), rng.Uniform →
      ∃ rng', iterateResolve K cfg sampleProp nows k n ⟨[u0], seq⟩ rng =
        .ok (List.replicate n (u0, false), ⟨[u0], seq⟩, rng') := by
  intro n
  induction n with
  | zero => exact fun k rng _ => ⟨rng, rfl⟩
  | succ n ih =>
    intro k rng hu
    have hu2 : Rng.Uniform (⟨rng.stream, rng.pos + 2⟩ : Rng α) := hu
    obtain ⟨rng', hrec⟩ := ih (k + 1) ⟨rng.stream, rng.pos + 2⟩ hu2
    refine ⟨rng', ?_⟩
    simp only [iterateResolve,
      get_or_create_single_share0 K cfg sampleProp u0 seq (nows k) rng hshare hm hu, hrec,
      List.replicate_succ]

/-- With `new_user_share = 1`, stream-preserving propensity sampling and
uniform draws, every one of `n` repeated resolutions creates a new user, and
the created ids are `userIdOf (seq+1), …, userIdOf (seq+n)`. -/
theorem iterate_share1 [FloorRing α] (K : MathKernel α) (cfg : UsersConfig α)
    (sampleProp : Rng α → α × Rng α) (nows : ℕ → α)
    (hshare : cfg.new_user_share = 1)
    (hpres : ∀ r : Rng α, (sampleProp r).2.stream = r.stream) :
    ∀ (n k : ℕ) (s : UsersState α) (rng : Rng α), rng.Uniform →
      ∃ res s' rng', iterateResolve K cfg sampleProp nows k n s rng = .ok (res, s', rng') ∧
        (∀ r ∈ res, r.2 = true) ∧
        res.map (fun r => r.1.user_id) =
          (List.range n).map (fun i => userIdOf (s.next_user_seq + 1 + i)) := by
  intro n
  induction n with
  | zero => exact fun k s rng _ => ⟨[], s, rng, rfl, by simp, by simp⟩
  | succ n ih =>
    intro k s rng hu
    have hstep : ∃ rng₁ : Rng α, rng₁.stream = rng.stream ∧
        UsersStateService.get_or_create_user_for_intent K cfg sampleProp s (nows k) rng =
          .ok (((UsersStateService.create_user cfg sampleProp s (nows k) rng₁).1, true),
            (UsersStateService.create_user cfg sampleProp s (nows k) rng₁).2) := by
      unfold UsersStateService.get_or_create_user_for_intent
      cases hus : s.users with
      | nil => exact ⟨rng, rfl, rfl⟩
      | cons v rest =>
        refine ⟨⟨rng.stream, rng.pos + 1⟩, rfl, ?_⟩
        dsimp only [Rng.random]
        rw [hshare, if_pos (hu rng.pos).2]
    obtain ⟨rng₁, hrs, hstep⟩ := hstep
    have hu₂ : Rng.Uniform (UsersStateService.create_user cfg sampleProp s (nows k) rng₁).2.2 := by
      intro i
      have e : (UsersStateService.create_user cfg sampleProp s (nows k) rng₁).2.2.stream =
          rng.stream := by
        show (sampleProp rng₁).2.stream = rng.stream
        rw [hpres rng₁, hrs]
      rw [e]
      exact hu i
    obtain ⟨res, s', rng', hrec, hall, hids⟩ :=
      ih (k + 1) (UsersStateService.create_user cfg sampleProp s (nows k) rng₁).2.1
        (UsersStateService.create_user cfg sampleProp s (nows k) rng₁).2.2 hu₂
    refine ⟨((UsersStateService.create_user cfg sampleProp s (nows k) rng₁).1, true) :: res,
      s', rng', ?_, ?_, ?_⟩
    · simp only [iterateResolve, hstep, hrec]
    · intro r hr
      rcases List.mem_cons.mp hr with h | h
      · rw [h]
      · exact hall r h
    · have hseq : (UsersStateService.create_user cfg sampleProp s (nows k) rng₁).2.1.next_user_seq =
          s.next_user_seq + 1 := rfl
      have hid : (UsersStateService.create_user cfg sampleProp s (nows k) rng₁).1.user_id =
          userIdOf (s.next_user_seq + 1) := rfl
      simp only [List.map_cons, hid, hids, hseq, List.range_succ_eq_map, List.map_map]
      refine congrArg₂ List.cons (congrArg userIdOf (by omega)) ?_
      exact List.map_congr_left fun i _ => congrArg userIdOf (by omega)

/-- Selection from a nonempty store under a valid mode always yields a user. -/
theorem select_existing_isSome [FloorRing α] (K : MathKernel α) (cfg : UsersConfig α)
    (s : UsersState α) (now : α) (rng : Rng α)
    (hm : cfg.selection.mode = "recency_propensity_weighted")
    (u0 : UserState α) (rest : List (UserState α)) (hus : s.users = u0 :: rest) :
    ∃ u rng₂, UsersStateService.select_existing_user K cfg s now rng = .ok (some u, rng₂) := by
  unfold UsersStateService.select_existing_user
  rw [hus]
  dsimp only [Rng.random]
  rw [if_neg (by rw [hm]; decide)]
  split_ifs <;> exact ⟨_, _, rfl⟩

/-- **C6**.  `get_or_create_user_for_intent`: (i) with an empty store it always
creates; (ii) with a nonempty store it draws `u` and creates exactly when
`u < new_user_share`, otherwise selecting an existing user; hence (iii) with
`new_user_share = 0` and one existing user every resolution returns that same
user, and (iv) with `new_user_share = 1` every resolution creates a new user
with pairwise-distinct user ids. -/
theorem C6_get_or_create_theorem [FloorRing α] (K : MathKernel α)
    (sampleProp : Rng α → α × Rng α) (nows : ℕ → α) :
    (∀ (cfg : UsersConfig α) (s : UsersState α) (now : α) (rng : Rng α),
      s.users = [] →
      UsersStateService.get_or_create_user_for_intent K cfg sampleProp s now rng =
        .ok (((UsersStateService.create_user cfg sampleProp s now rng).1, true),
          (UsersStateService.create_user cfg sampleProp s now rng).2)) ∧
    (∀ (cfg : UsersConfig α) (s : UsersState α) (now : α) (rng : Rng α)
        (u0 : UserState α) (rest : List (UserState α)), s.users = u0 :: rest →
      cfg.selection.mode = "recency_propensity_weighted" →
      (rng.stream rng.pos < cfg.new_user_share →
        UsersStateService.get_or_create_user_for_intent K cfg sampleProp s now rng =
          .ok (((UsersStateService.create_user cfg sampleProp s now
              ⟨rng.stream, rng.pos + 1⟩).1, true),
            (UsersStateService.create_user cfg sampleProp s now ⟨rng.stream, rng.pos + 1⟩).2)) ∧
      (¬ rng.stream rng.pos < cfg.new_user_share →
        ∃ u rng₂,
          UsersStateService.select_existing_user K cfg s now ⟨rng.stream, rng.pos + 1⟩ =
            .ok (some u, rng₂) ∧
          UsersStateService.get_or_create_user_for_intent K cfg sampleProp s now rng =
            .ok ((u, false), s, rng₂))) ∧
    (∀ (cfg : UsersConfig α) (u0 : UserState α) (seq n k : ℕ) (rng : Rng α),
      cfg.new_user_share = 0 → cfg.selection.mode = "recency_propensity_weighted" →
      rng.Uniform →
      ∃ rng', iterateResolve K cfg sampleProp nows k n ⟨[u0], seq⟩ rng =
        .ok (List.replicate n (u0, false), ⟨[u0], seq⟩, rng')) ∧
    (∀ (cfg : UsersConfig α) (s : UsersState α) (n k : ℕ) (rng : Rng α),
      cfg.new_user_share = 1 → (∀ r : Rng α, (sampleProp r).2.stream = r.stream) →
      rng.Uniform →
      ∃ res s' rng', iterateResolve K cfg sampleProp nows k n s rng = .ok (res, s', rng') ∧
        res.length = n ∧ (∀ r ∈ res, r.2 = true) ∧
        (res.map (fun r => r.1.user_id)).Nodup) := by
  refine ⟨?_, ?_, ?_, ?_⟩
  · intro cfg s now rng hus
    unfold UsersStateService.get_or_create_user_for_intent
    rw [hus]
  · intro cfg s now rng u0 rest hus hm
    constructor
    · intro hd
      unfold UsersStateService.get_or_create_user_for_intent
      rw [hus]
      dsimp only [Rng.random]
      rw [if_pos hd]
    · intro hd
      obtain ⟨u, rng₂, hsel⟩ :=
        select_existing_isSome K cfg s now ⟨rng.stream, rng.pos + 1⟩ hm u0 rest hus
      refine ⟨u, rng₂, hsel, ?_⟩
      unfold UsersStateService.get_or_create_user_for_intent
      rw [hus]
      dsimp only [Rng.random]
      rw [if_neg hd, hsel]
  · intro cfg u0 seq n k rng hshare hm hu
    exact iterate_share0 K cfg sampleProp nows hshare hm u0 seq n k rng hu
  · intro cfg s n k rng hshare hpres hu
    obtain ⟨res, s', rng', h1, h2, h3⟩ :=
      iterate_share1 K cfg sampleProp nows hshare hpres n k s rng hu
    refine ⟨res, s', rng', h1, ?_, h2, ?_⟩
    · have := congrArg List.length h3
      simpa using this
    · rw [h3]
      refine List.Nodup.map ?_ (List.nodup_range n)
      intro a b hab
      have := userIdOf_inj hab
      omega

/-- Trivial kernel used to instantiate rational-valued witnesses. -/
def qKernel : MathKernel ℚ := ⟨id, id⟩

def wSelCfg : UsersSelectionConfig ℚ := ⟨"recency_propensity_weighted", 18, 1/2, 1/2⟩

def wDiscCfg : DiscoveryModeConfig ℚ := ⟨true, 2, 5/4, -4/5⟩

def wCfg0 : UsersConfig ℚ := ⟨0, wSelCfg, wDiscCfg⟩

def wCfg1 : UsersConfig ℚ := ⟨1, wSelCfg, wDiscCfg⟩

def wU0 : UserState ℚ := ⟨userIdOf 1, 0, 0, 0, 1/2, true, 0, 5/4, -4/5⟩

def wRngQ : Rng ℚ := ⟨fun _ => 0, 0⟩

theorem wRngQ_uniform : wRngQ.Uniform :=
  fun _ => ⟨le_refl 0, by norm_num [wRngQ]⟩

/-- Witness for `C6_get_or_create_theorem` at concrete rational inputs. -/
theorem C6_get_or_create_witness :
    (UsersStateService.get_or_create_user_for_intent qKernel wCfg0 Rng.random
        (⟨[], 0⟩ : UsersState ℚ) 0 wRngQ =
      .ok (((UsersStateService.create_user wCfg0 Rng.random ⟨[], 0⟩ 0 wRngQ).1, true),
        (UsersStateService.create_user wCfg0 Rng.random ⟨[], 0⟩ 0 wRngQ).2)) ∧
    (∃ rng', iterateResolve qKernel wCfg0 Rng.random (fun _ => 0) 0 2 ⟨[wU0], 1⟩ wRngQ =
      .ok (List.replicate 2 (wU0, false), ⟨[wU0], 1⟩, rng')) ∧
    (∃ res s' rng',
      iterateResolve qKernel wCfg1 Rng.random (fun _ => 0) 0 3
          (⟨[], 0⟩ : UsersState ℚ) wRngQ = .ok (res, s', rng') ∧
        res.length = 3 ∧ (∀ r ∈ res, r.2 = true) ∧
        (res.map (fun r => r.1.user_id)).Nodup) :=
  ⟨(C6_get_or_create_theorem qKernel Rng.random (fun _ => 0)).1 wCfg0 ⟨[], 0⟩ 0 wRngQ rfl,
    (C6_get_or_create_theorem qKernel Rng.random (fun _ => 0)).2.2.1 wCfg0 wU0 1 2 0 wRngQ
      rfl rfl wRngQ_uniform,
    (C6_get_or_create_theorem qKernel Rng.random (fun _ => 0)).2.2.2 wCfg1 ⟨[], 0⟩ 3 0 wRngQ
      rfl (fun _ => rfl) wRngQ_uniform⟩

noncomputable def wSelCfgR : UsersSelectionConfig ℝ := ⟨"recency_propensity_weighted", 18, 1/2, 1/2⟩

noncomputable def wCfgR : UsersConfig ℝ := ⟨3/5, wSelCfgR, ⟨true, 2, 5/4, -4/5⟩⟩

noncomputable def wUserR : UserState ℝ := ⟨userIdOf 1, 0, 0, 0, 1/2, true, 0, 5/4, -4/5⟩

noncomputable def wStateR : UsersState ℝ := ⟨[wUserR], 1⟩

noncomputable def wRngR : Rng ℝ := ⟨fun _ => 0, 0⟩

/-- Witness for `C7_select_existing_theorem` at a concrete one-user store. -/
theorem C7_select_existing_witness :
    (∀ u ∈ wStateR.users,
      UsersStateService.weight realKernel wCfgR.selection u 3600 =
        specWeight wCfgR.selection u 3600) ∧
    UsersStateService.select_existing_user realKernel wCfgR wStateR 3600 wRngR =
      .ok (selectExistingSpec wCfgR wStateR 3600 wRngR) :=
  C7_select_existing_theorem wCfgR wStateR 3600 wRngR rfl
    (by norm_num [wCfgR, wSelCfgR]) (by norm_num [wCfgR, wSelCfgR])
    (by norm_num [wCfgR, wSelCfgR])
    (by
      intro u hu
      simp only [wStateR, List.mem_singleton] at hu
      rw [hu]
      norm_num [wUserR])

-- ----------------------------------------------------------------
-- Sessions service (sim/features/sessions/service.py)
-- ----------------------------------------------------------------

/-- `InterPageTimeConfig` from `sessions/service.py`. -/
structure InterPageTimeConfig (α : Type) where
  dist : String
  fixed_seconds : α
  mean_seconds : α

/-- `SessionsConfig` from `sessions/service.py` (`max_steps : int | None`). -/
structure SessionsConfig (α : Type) where
  inactivity_timeout_minutes : α
  max_steps : Option ℤ
  entry_page : String
  inter_page_time : InterPageTimeConfig α

/-- The `dropoff_p` field of a site-graph page, as read by the session loop. -/
structure PageLike (α : Type) where
  dropoff_p : α

/-- The `WebsiteGraphLike` protocol as used by `_run_session`: page lookup and
the (RNG-consuming) transition choice. -/
structure GraphLike (α : Type) where
  get_page : String → Option (PageLike α)
  next_page : String → Rng α → Option String × Rng α

/-- `_sample_inter_page_delay_s`.  The repository's `RNG` (`sim/core/rng.py`)
defines no `expovariate`, so the source's `hasattr` probe fails and the
inverse-CDF fallback from `rng.random()` is always taken; its
`-log(1-clamp(u))·mean` formula is abstracted into the kernel function
`invExpCdf u mean` (all session claims hold for every such function). -/
def sampleInterPageDelay (invExpCdf : α → α → α) (cfg : InterPageTimeConfig α)
    (rng : Rng α) : Except String (α × Rng α) :=
  let dist := pyStrip (pyLower (if cfg.dist = "" then "fixed" else cfg.dist))
  if dist = "fixed" then .ok (cfg.fixed_seconds, rng)
  else if dist = "exponential" then
    if cfg.mean_seconds ≤ 0 then .ok (0, rng)
    else
      let u := (rng.random).1
      .ok (invExpCdf u cfg.mean_seconds, (rng.random).2)
  else .error "Unsupported sessions.inter_page_time.dist"

/-- One event as emitted by `SessionsService._emit` (the `run_id`/`event_id`
bookkeeping and the wall-clock `ts_utc` mirror of `sim_time_s` are carried by
the surrounding services). -/
structure SessEvent (α : Type) where
  sim_time_s : α
  event_type : String
  user_id : String
  session_id : String
  intent_source : Option String
  channel : Option String
  page : Option String
  value_num : Option α
  value_str : Option String

/-- The fixed collaborators and per-spawn arguments of one `_run_session`
process. -/
structure SessionEnv (α : Type) where
  K : MathKernel α
  invExpCdf : α → α → α
  graph : GraphLike α
  cfg : SessionsConfig α
  conversion : Option (ConversionConfig α)
  user_id : String
  session_id : String
  intent_source : Option String
  channel : Option String
  user_propensity : Option α
  dropoff_multiplier : α
  conversion_logit_shift : α

/-- Build one emitted event from the per-session constants. -/
def mkEv (E : SessionEnv α) (t : α) (etype : String) (page : Option String)
    (vnum : Option α) (vstr : Option String) : SessEvent α :=
  ⟨t, etype, E.user_id, E.session_id, E.intent_source, E.channel, page, vnum, vstr⟩

/-- `_under_step_cap`: `True` when `max_steps` is `None`, else
`steps < int(max_steps)`. -/
def underStepCap (max_steps : Option ℤ) (steps : ℕ) : Bool :=
  match max_steps with
  | none => true
  | some m => decide ((steps : ℤ) < m)

/-- The effective drop-off probability of a page: base `dropoff_p` (0 when the
page is unknown), multiplied and clamped when a multiplier is active. -/
def effectiveDropoff (E : SessionEnv α) (cur : String) : α :=
  let p : α := match E.graph.get_page cur with
    | some pg => pg.dropoff_p
    | none => 0
  if E.dropoff_multiplier ≠ 1 then clampMax01 (p * E.dropoff_multiplier) else p

/-- The conversion evaluation of one step: `none` when no conversion model is
attached; otherwise `should_convert` on one fresh draw (default propensity
`0.5`). -/
def convOutcome (E : SessionEnv α) (rng : Rng α) : Option (Bool × α) × Rng α :=
  match E.conversion with
  | none => (none, rng)
  | some ccfg =>
    let prop : α := match E.user_propensity with
      | none => 1 / 2
      | some p => p
    (some (ConversionService.should_convert E.K ccfg prop E.conversion_logit_shift
      ((rng.random).1)), (rng.random).2)

/-- Result of running one session process to completion: its emissions, final
logical time and final RNG; a `ValueError` from delay sampling; or exhausted
fuel (the loop did not terminate within the allotted iterations). -/
inductive SessOut (α : Type) where
  | ok (events : List (SessEvent α)) (tEnd : α) (rng : Rng α)
  | err (msg : String)
  | fuelOut

/-- The code after the `while` loop of `_run_session`: `session_end` with
reason `max_steps` when a cap is configured and reached, else the defensive
`ended` fallback. -/
def sessionExitCode (E : SessionEnv α) (current : Option String) (steps : ℕ)
    (t : α) (rng : Rng α) : SessOut α :=
  match E.cfg.max_steps with
  | some m =>
    if m ≤ (steps : ℤ) then
      .ok [mkEv E t "session_end" current (some (steps : α)) (some "max_steps")] t rng
    else
      .ok [mkEv E t "session_end" current (some (steps : α)) (some "ended")] t rng
  | none =>
    .ok [mkEv E t "session_end" current (some (steps : α)) (some "ended")] t rng

mutual

/-- The `while` loop of `SessionsService._run_session`, one fuel unit per
iteration.  Mirrors the source: page view, drop-off draw, optional conversion
draw, inter-page delay with the inactivity-timeout cap, then transition; on
loop exit the `max_steps` check and the defensive `ended` fallback. -/
def runSessionLoop (E : SessionEnv α) :
    ℕ → Option String → ℕ → α → Rng α → SessOut α
  | 0, _, _, _, _ => .fuelOut
  | Nat.succ fuel, current, steps, t, rng =>
    match current with
    | none => sessionExitCode E current steps t rng
    | some cur =>
      if ¬ underStepCap E.cfg.max_steps steps then sessionExitCode E current steps t rng
      else
      let steps' := steps + 1
      let pv := mkEv E t "page_view" (some cur) (some (steps' : α)) none
      let dropoff_p := effectiveDropoff E cur
      let u₁ := (rng.random).1
      let rng₁ := (rng.random).2
      if u₁ < dropoff_p then
        .ok [pv, mkEv E t "drop_off" (some cur) (some dropoff_p) none,
          mkEv E t "session_end" (some cur) (some (steps' : α)) (some "drop_off")] t rng₁
      else
        match convOutcome E rng₁ with
        | (some (true, pconv), rng₂) =>
          .ok [pv, mkEv E t "conversion" (some cur) (some pconv) none,
            mkEv E t "session_end" (some cur) (some (steps' : α)) (some "conversion")] t rng₂
        | (some (false, _), rng₂) =>
          sessionAfterConv E fuel cur steps' t rng₂
        | (none, rng₂) =>
          sessionAfterConv E fuel cur steps' t rng₂

/-- The tail of one loop iteration after the conversion check: delay sampling,
timeout cap, transition, and the next iteration. -/
def sessionAfterConv (E : SessionEnv α) :
    ℕ → String → ℕ → α → Rng α → SessOut α :=
  fun fuel cur steps' t rng₂ =>
  let pv := mkEv E t "page_view" (some cur) (some (steps' : α)) none
  match sampleInterPageDelay E.invExpCdf E.cfg.inter_page_time rng₂ with
  | .error e => .err e
  | .ok (delay_s, rng₃) =>
    let timeout_s := E.cfg.inactivity_timeout_minutes * 60
    if timeout_s > 0 ∧ delay_s > timeout_s then
      .ok [pv, mkEv E (t + timeout_s) "session_end" (some cur) (some (steps' : α))
        (some "timeout")] (t + timeout_s) rng₃
    else
      let t' := if delay_s > 0 then t + delay_s else t
      match E.graph.next_page cur rng₃ with
      | (none, rng₄) =>
        .ok [pv, mkEv E t' "session_end" (some cur) (some (steps' : α))
          (some "no_next_page")] t' rng₄
      | (some nxt, rng₄) =>
        match runSessionLoop E fuel (some nxt) steps' t' rng₄ with
        | .ok evs tEnd rngEnd => .ok (pv :: evs) tEnd rngEnd
        | e => e

end

/-- `SessionsService._run_session`: emit `session_start` at the entry page and
run the loop. -/
def runSession (E : SessionEnv α) (fuel : ℕ) (entry : String) (t0 : α)
    (rng : Rng α) : SessOut α :=
  match runSessionLoop E fuel (some entry) 0 t0 rng with
  | .ok evs tEnd rngEnd =>
    .ok (mkEv E t0 "session_start" (some entry) none none :: evs) tEnd rngEnd
  | e => e

/-- `SessionsService.spawn`: entry page defaults to the configured one. -/
def SessionsService.spawn (E : SessionEnv α) (fuel : ℕ) (entry_page : Option String)
    (t0 : α) (rng : Rng α) : SessOut α :=
  runSession E fuel
    (match entry_page with
     | none => E.cfg.entry_page
     | some p => p) t0 rng

/-- The six terminal reasons of `session_end`. -/
def endReasons : List (Option String) :=
  [some "drop_off", some "conversion", some "timeout", some "no_next_page",
    some "max_steps", some "ended"]

/-- A clean emission trace: it is nonempty, its last event is a `session_end`
with one of the six terminal reasons, and no earlier event is a
`session_end`. -/
def TerminatesCleanly (evs : List (SessEvent α)) : Prop :=
  ∃ pre last, evs = pre ++ [last] ∧ last.event_type = "session_end" ∧
    last.value_str ∈ endReasons ∧ ∀ e ∈ pre, e.event_type ≠ "session_end"

theorem terminatesCleanly_cons (e : SessEvent α) (he : e.event_type ≠ "session_end")
    {evs : List (SessEvent α)} (h : TerminatesCleanly evs) :
    TerminatesCleanly (e :: evs) := by
  obtain ⟨pre, last, h1, h2, h3, h4⟩ := h
  refine ⟨e :: pre, last, by rw [h1, List.cons_append], h2, h3, ?_⟩
  intro e' he'
  rcases List.mem_cons.mp he' with h | h
  · rw [h]; exact he
  · exact h4 e' h

theorem afterConv_terminates_cleanly (E : SessionEnv α) (fuel : ℕ)
    (ih : ∀ cur steps t rng evs tEnd rng',
      runSessionLoop E fuel cur steps t rng = .ok evs tEnd rng' → TerminatesCleanly evs) :
    ∀ cur steps' t rng₂ evs tEnd rng',
      sessionAfterConv E fuel cur steps' t rng₂ = .ok evs tEnd rng' →
      TerminatesCleanly evs := by
  intro cur steps' t rng₂ evs tEnd rng' h
  simp only [sessionAfterConv] at h
  split at h
  · exact absurd h (by simp)
  · split at h
    · obtain ⟨h1, h2, h3⟩ := (SessOut.ok.injEq _ _ _ _ _ _).mp h.symm
      refine ⟨[mkEv E t "page_view" (some cur) (some (steps' : α)) none], _, h1, rfl, ?_, ?_⟩
      · simp [endReasons, mkEv]
      · intro e he
        simp only [List.mem_singleton] at he
        rw [he]
        exact fun hc => absurd hc (by simp [mkEv])
    · split at h
      · obtain ⟨h1, h2, h3⟩ := (SessOut.ok.injEq _ _ _ _ _ _).mp h.symm
        refine ⟨[mkEv E t "page_view" (some cur) (some (steps' : α)) none], _, h1, rfl, ?_, ?_⟩
        · simp [endReasons, mkEv]
        · intro e he
          simp only [List.mem_singleton] at he
          rw [he]
          exact fun hc => absurd hc (by simp [mkEv])
      · split at h
        · rename_i heq
          obtain ⟨h1, h2, h3⟩ := (SessOut.ok.injEq _ _ _ _ _ _).mp h.symm
          rw [h1]
          exact terminatesCleanly_cons _ (by simp [mkEv]) (ih _ _ _ _ _ _ _ heq)
        · exact absurd h (by rename_i hne _; cases hne' : runSessionLoop E fuel _ _ _ _ <;>
            simp_all)

theorem tc_single (e : SessEvent α) (h2 : e.event_type = "session_end")
    (h3 : e.value_str ∈ endReasons) : TerminatesCleanly [e] :=
  ⟨[], e, rfl, h2, h3, by simp⟩

theorem tc_three (a b e : SessEvent α) (ha : a.event_type ≠ "session_end")
    (hb : b.event_type ≠ "session_end") (h2 : e.event_type = "session_end")
    (h3 : e.value_str ∈ endReasons) : TerminatesCleanly [a, b, e] := by
  refine ⟨[a, b], e, rfl, h2, h3, ?_⟩
  intro x hx
  rcases List.mem_cons.mp hx with hh | hh
  · rw [hh]; exact ha
  · simp only [List.mem_singleton] at hh
    rw [hh]; exact hb

theorem exitCode_terminates_cleanly (E : SessionEnv α) (current : Option String)
    (steps : ℕ) (t : α) (rng : Rng α) (evs : List (SessEvent α)) (tEnd : α) (rng' : Rng α)
    (h : sessionExitCode E current steps t rng = .ok evs tEnd rng') :
    TerminatesCleanly evs := by
  unfold sessionExitCode at h
  repeat' split at h
  all_goals
    obtain ⟨h1, h2, h3⟩ := (SessOut.ok.injEq _ _ _ _ _ _).mp h.symm
  all_goals
    subst h1
  all_goals
    exact tc_single _ rfl (by simp [endReasons, mkEv])

/-- Every completed run of the session loop produces a clean trace. -/
theorem loop_terminates_cleanly (E : SessionEnv α) :
    ∀ (fuel : ℕ) (cur : Option String) (steps : ℕ) (t : α) (rng : Rng α)
      (evs : List (SessEvent α)) (tEnd : α) (rng' : Rng α),
      runSessionLoop E fuel cur steps t rng = .ok evs tEnd rng' →
      TerminatesCleanly evs := by
  intro fuel
  induction fuel with
  | zero =>
    intro cur steps t rng evs tEnd rng' h
    exact absurd h (by simp [runSessionLoop])
  | succ fuel ih =>
    intro cur steps t rng evs tEnd rng' h
    rw [runSessionLoop.eq_def] at h
    repeat'
      first
      | (dsimp only at h)
      | split at h
    all_goals
      first
      | exact SessOut.noConfusion h
      | exact exitCode_terminates_cleanly E _ _ _ _ _ _ _ h
      | exact afterConv_terminates_cleanly E fuel ih _ _ _ _ _ _ _ h
      | (obtain ⟨h1, h2, h3⟩ := (SessOut.ok.injEq _ _ _ _ _ _).mp h.symm
         subst h1
         first
         | exact tc_single _ rfl (by simp [endReasons, mkEv])
         | exact tc_three _ _ _ (by simp [mkEv]) (by simp [mkEv]) rfl
             (by simp [endReasons, mkEv]))

/-- **C2**.  Every session process spawned by `SessionsService.spawn` that
runs to completion emits exactly one `session_end` — it is the final event,
nothing is emitted after it, and its `value_str` is one of `drop_off`,
`conversion`, `timeout`, `no_next_page`, `max_steps`, `ended`. -/
theorem C2_session_end_theorem (E : SessionEnv α) (fuel : ℕ)
    (entry_page : Option String) (t0 : α) (rng : Rng α)
    (evs : List (SessEvent α)) (tEnd : α) (rng' : Rng α)
    (h : SessionsService.spawn E fuel entry_page t0 rng = .ok evs tEnd rng') :
    ∃ pre last, evs = pre ++ [last] ∧ last.event_type = "session_end" ∧
      last.value_str ∈ endReasons ∧ ∀ e ∈ pre, e.event_type ≠ "session_end" := by
  unfold SessionsService.spawn runSession at h
  split at h
  · obtain ⟨h1, h2, h3⟩ := (SessOut.ok.injEq _ _ _ _ _ _).mp h.symm
    rw [h1]
    rename_i heq
    exact terminatesCleanly_cons _ (by simp [mkEv]) (loop_terminates_cleanly E _ _ _ _ _ _ _ _ heq)
  · rename_i heq
    exact (heq _ _ _ h).elim

-- C10: the defensive "ended" fallback is unreachable -------------------------

theorem exitCode_no_ended (E : SessionEnv α) (c : String) (steps : ℕ) (t : α)
    (rng : Rng α) (evs : List (SessEvent α)) (tEnd : α) (rng' : Rng α)
    (hcap : ¬ underStepCap E.cfg.max_steps steps = true)
    (h : sessionExitCode E (some c) steps t rng = .ok evs tEnd rng') :
    ∀ e ∈ evs, e.value_str ≠ some "ended" := by
  unfold sessionExitCode at h
  cases hms : E.cfg.max_steps with
  | none =>
    rw [hms] at hcap
    exact absurd rfl hcap
  | some m =>
    rw [hms] at h hcap
    dsimp only at h
    have hle : m ≤ (steps : ℤ) := by
      simpa [underStepCap, not_lt] using hcap
    rw [if_pos hle] at h
    obtain ⟨h1, h2, h3⟩ := (SessOut.ok.injEq _ _ _ _ _ _).mp h.symm
    subst h1
    intro e he
    fin_cases he
    simp [mkEv]

theorem afterConv_no_ended (E : SessionEnv α) (fuel : ℕ)
    (ih : ∀ (c : String) steps t rng evs tEnd rng',
      runSessionLoop E fuel (some c) steps t rng = .ok evs tEnd rng' →
      ∀ e ∈ evs, e.value_str ≠ some "ended") :
    ∀ (cur : String) steps' t rng₂ evs tEnd rng',
      sessionAfterConv E fuel cur steps' t rng₂ = .ok evs tEnd rng' →
      ∀ e ∈ evs, e.value_str ≠ some "ended" := by
  intro cur steps' t rng₂ evs tEnd rng' h
  simp only [sessionAfterConv] at h
  split at h
  · exact absurd h (by simp)
  · split at h
    · obtain ⟨h1, h2, h3⟩ := (SessOut.ok.injEq _ _ _ _ _ _).mp h.symm
      subst h1
      intro e he
      fin_cases he <;> simp [mkEv]
    · split at h
      · obtain ⟨h1, h2, h3⟩ := (SessOut.ok.injEq _ _ _ _ _ _).mp h.symm
        subst h1
        intro e he
        fin_cases he <;> simp [mkEv]
      · split at h
        · rename_i heq
          obtain ⟨h1, h2, h3⟩ := (SessOut.ok.injEq _ _ _ _ _ _).mp h.symm
          subst h1
          intro e he
          rcases List.mem_cons.mp he with hh | hh
          · rw [hh]; simp [mkEv]
          · exact ih _ _ _ _ _ _ _ heq e hh
        · exact absurd h (by rename_i hne _; cases hne' : runSessionLoop E fuel _ _ _ _ <;>
            simp_all)

theorem loop_no_ended (E : SessionEnv α) :
    ∀ (fuel : ℕ) (c : String) (steps : ℕ) (t : α) (rng : Rng α)
      (evs : List (SessEvent α)) (tEnd : α) (rng' : Rng α),
      runSessionLoop E fuel (some c) steps t rng = .ok evs tEnd rng' →
      ∀ e ∈ evs, e.value_str ≠ some "ended" := by
  intro fuel
  induction fuel with
  | zero =>
    intro c steps t rng evs tEnd rng' h
    exact absurd h (by simp [runSessionLoop])
  | succ fuel ih =>
    intro c steps t rng evs tEnd rng' h
    rw [runSessionLoop.eq_def] at h
    repeat'
      first
      | (dsimp only at h)
      | split at h
    all_goals
      first
      | exact SessOut.noConfusion h
      | (rename_i hcap
         exact exitCode_no_ended E _ _ _ _ _ _ _ hcap h)
      | exact afterConv_no_ended E fuel ih _ _ _ _ _ _ _ h
      | (obtain ⟨h1, h2, h3⟩ := (SessOut.ok.injEq _ _ _ _ _ _).mp h.symm
         subst h1
         intro e he
         fin_cases he <;> simp [mkEv])

/-- **C10**.  A `session_end` with `value_str = "ended"` is never emitted: the
loop only exits through a terminal branch or the `max_steps` check, so the
defensive `ended` fallback of `_run_session` is unreachable for every spawned
session, every configuration and every draw sequence. -/
theorem C10_no_ended_theorem (E : SessionEnv α) (fuel : ℕ)
    (entry_page : Option String) (t0 : α) (rng : Rng α)
    (evs : List (SessEvent α)) (tEnd : α) (rng' : Rng α)
    (h : SessionsService.spawn E fuel entry_page t0 rng = .ok evs tEnd rng') :
    ∀ e ∈ evs, e.value_str ≠ some "ended" := by
  unfold SessionsService.spawn runSession at h
  split at h
  · rename_i heq
    obtain ⟨h1, h2, h3⟩ := (SessOut.ok.injEq _ _ _ _ _ _).mp h.symm
    subst h1
    intro e he
    rcases List.mem_cons.mp he with hh | hh
    · rw [hh]; simp [mkEv]
    · exact loop_no_ended E _ _ _ _ _ _ _ _ heq e hh
  · rename_i heq
    exact (heq _ _ _ h).elim

-- C3: the inactivity-timeout step -------------------------------------------

/-- **C3** (amended).  In every session step that reaches delay sampling
(no drop-off, no conversion), *where the inactivity timeout is positive* and
the sampled inter-page delay exceeds it, the session advances logical time by
exactly the timeout duration (`inactivity_timeout_minutes × 60`, not the
sampled delay), emits a final `session_end` with `value_str = "timeout"` at
that time, and terminates.  (With a non-positive timeout the source disables
the rule and advances by the full sampled delay.) -/
theorem C3_timeout_step_theorem (E : SessionEnv α) (fuel : ℕ) (cur : String)
    (steps : ℕ) (t : α) (rng : Rng α) (delay_s : α) (rng₃ : Rng α)
    (hcap : underStepCap E.cfg.max_steps steps = true)
    (hnodrop : ¬ (rng.random).1 < effectiveDropoff E cur)
    (hnoconv : ∀ p : α, (convOutcome E (rng.random).2).1 ≠ some (true, p))
    (hdelay : sampleInterPageDelay E.invExpCdf E.cfg.inter_page_time
        (convOutcome E (rng.random).2).2 = .ok (delay_s, rng₃))
    (htpos : 0 < E.cfg.inactivity_timeout_minutes * 60)
    (hgt : E.cfg.inactivity_timeout_minutes * 60 < delay_s) :
    runSessionLoop E (fuel + 1) (some cur) steps t rng =
      .ok [mkEv E t "page_view" (some cur) (some ((steps + 1 : ℕ) : α)) none,
        mkEv E (t + E.cfg.inactivity_timeout_minutes * 60) "session_end" (some cur)
          (some ((steps + 1 : ℕ) : α)) (some "timeout")]
        (t + E.cfg.inactivity_timeout_minutes * 60) rng₃ := by
  rw [runSessionLoop.eq_def]
  dsimp only
  rw [if_neg (not_not_intro hcap), if_neg hnodrop]
  rcases hco : convOutcome E (rng.random).2 with ⟨o, rngc⟩
  have hd : sampleInterPageDelay E.invExpCdf E.cfg.inter_page_time rngc =
      .ok (delay_s, rng₃) := by
    rw [← hdelay, hco]
  have hafter : sessionAfterConv E fuel cur (steps + 1) t rngc =
      .ok [mkEv E t "page_view" (some cur) (some ((steps + 1 : ℕ) : α)) none,
        mkEv E (t + E.cfg.inactivity_timeout_minutes * 60) "session_end" (some cur)
          (some ((steps + 1 : ℕ) : α)) (some "timeout")]
        (t + E.cfg.inactivity_timeout_minutes * 60) rng₃ := by
    simp only [sessionAfterConv, hd]
    rw [if_pos ⟨htpos, hgt⟩]
  rcases o with _ | ⟨b, p⟩
  · exact hafter
  · cases b with
    | true => exact absurd (by rw [hco]) (hnoconv p)
    | false => exact hafter

def wGraphEnd : GraphLike ℚ :=
  ⟨fun _ => some ⟨0⟩, fun _ r => (none, r)⟩

def wTimeoutEnv : SessionEnv ℚ :=
  ⟨qKernel, fun _ _ => 0, wGraphEnd, ⟨1, some 12, "home", ⟨"fixed", 999, 10⟩⟩,
    none, "u1", "s1", none, none, none, 1, 0⟩

/-- Witness for `C3_timeout_step_theorem`: a page with a fixed 999-second
inter-page delay and `inactivity_timeout_minutes = 1` ends the session with
`reason = timeout` and the logical clock advances by exactly 60 seconds. -/
theorem C3_timeout_step_witness :
    runSessionLoop wTimeoutEnv 1 (some "home") 0 0 wRngQ =
      .ok [mkEv wTimeoutEnv 0 "page_view" (some "home") (some 1) none,
        mkEv wTimeoutEnv (0 + wTimeoutEnv.cfg.inactivity_timeout_minutes * 60)
          "session_end" (some "home") (some 1) (some "timeout")]
        (0 + wTimeoutEnv.cfg.inactivity_timeout_minutes * 60) ⟨wRngQ.stream, 1⟩ ∧
    (0 : ℚ) + wTimeoutEnv.cfg.inactivity_timeout_minutes * 60 = 60 :=
  ⟨C3_timeout_step_theorem wTimeoutEnv 0 "home" 0 0 wRngQ 999 ⟨wRngQ.stream, 1⟩
    (by decide) (by decide) (fun p h => Option.noConfusion h) rfl
    (by norm_num [wTimeoutEnv]) (by norm_num [wTimeoutEnv]),
   by norm_num [wTimeoutEnv]⟩

def wC3Env : SessionEnv ℚ :=
  ⟨qKernel, fun _ _ => 0, wGraphEnd, ⟨0, some 12, "home", ⟨"fixed", 10, 10⟩⟩,
    none, "u1", "s1", none, none, none, 1, 0⟩

/-- **C3** counterexample to the claim as stated: with
`inactivity_timeout_minutes = 0` and a fixed 10-second delay, the sampled
delay exceeds the timeout (10 > 0), yet the session does *not* end with
`timeout` at that step and the clock advances by the full 10-second delay
rather than by the timeout duration. -/
theorem C3_counterexample :
    wC3Env.cfg.inactivity_timeout_minutes * 60 < (10 : ℚ) ∧
    runSession wC3Env 2 "home" 0 wRngQ =
      .ok [mkEv wC3Env 0 "session_start" (some "home") none none,
        mkEv wC3Env 0 "page_view" (some "home") (some 1) none,
        mkEv wC3Env 10 "session_end" (some "home") (some 1) (some "no_next_page")]
        10 ⟨wRngQ.stream, 1⟩ ∧
    (10 : ℚ) ≠ 0 + wC3Env.cfg.inactivity_timeout_minutes * 60 := by
  have h1 : pyStrip (pyLower "fixed") = "fixed" := by decide
  refine ⟨by norm_num [wC3Env], ?_, by norm_num [wC3Env]⟩
  norm_num [runSession, runSessionLoop, sessionAfterConv, sampleInterPageDelay,
    underStepCap, effectiveDropoff, convOutcome, mkEv, Rng.random,
    wC3Env, wRngQ, wGraphEnd, h1]

def wSessEnv : SessionEnv ℚ :=
  ⟨qKernel, fun _ _ => 0, wGraphEnd, ⟨30, some 12, "home", ⟨"fixed", 10, 10⟩⟩,
    none, "u1", "s1", none, none, none, 1, 0⟩

/-- A fully evaluated concrete spawned session, used by the session witnesses. -/
theorem wSessEnv_run :
    SessionsService.spawn wSessEnv 2 none 0 wRngQ =
      .ok [mkEv wSessEnv 0 "session_start" (some "home") none none,
        mkEv wSessEnv 0 "page_view" (some "home") (some 1) none,
        mkEv wSessEnv 10 "session_end" (some "home") (some 1) (some "no_next_page")]
        10 ⟨wRngQ.stream, 1⟩ := by
  have h1 : pyStrip (pyLower "fixed") = "fixed" := by decide
  norm_num [SessionsService.spawn, runSession, runSessionLoop, sessionAfterConv,
    sampleInterPageDelay, underStepCap, effectiveDropoff, convOutcome, mkEv, Rng.random,
    wSessEnv, wRngQ, wGraphEnd, h1]

/-- Witness for `C2_session_end_theorem` on a concrete completed session. -/
theorem C2_session_end_witness :
    ∃ pre last,
      ([mkEv wSessEnv 0 "session_start" (some "home") none none,
        mkEv wSessEnv 0 "page_view" (some "home") (some 1) none,
        mkEv wSessEnv 10 "session_end" (some "home") (some 1) (some "no_next_page")] :
          List (SessEvent ℚ)) = pre ++ [last] ∧
      last.event_type = "session_end" ∧ last.value_str ∈ endReasons ∧
      ∀ e ∈ pre, e.event_type ≠ "session_end" :=
  C2_session_end_theorem wSessEnv 2 none 0 wRngQ _ 10 ⟨wRngQ.stream, 1⟩ wSessEnv_run

/-- Witness for `C10_no_ended_theorem` on a concrete completed session. -/
theorem C10_no_ended_witness :
    (mkEv wSessEnv 10 "session_end" (some "home") (some 1)
        (some "no_next_page")).value_str ≠ some "ended" :=
  C10_no_ended_theorem wSessEnv 2 none 0 wRngQ _ 10 ⟨wRngQ.stream, 1⟩ wSessEnv_run
    _ (by simp)

-- ----------------------------------------------------------------
-- Persistence buffer (sim/features/persistence/service.py)
-- ----------------------------------------------------------------

/-- The observable state of `PersistenceService`: the open flag, the in-memory
buffer, and the sequence of batches passed to `adapter.write_events` (one list
entry per adapter write call).  The flush `reason` strings only feed the
structured log and are not modelled. -/
structure PersistState (ε ρ : Type) where
  is_open : Bool
  buf : List ε
  writes : List (List ρ)

/-- `PersistenceService.flush`: a no-op on an empty buffer, otherwise convert
the whole buffer with `_event_to_row`, clear it, and hand the batch to the
adapter in one write call. -/
def PersistenceService.flush {ε ρ : Type} (rowFn : ε → ρ) (s : PersistState ε ρ) :
    PersistState ε ρ :=
  if s.buf.isEmpty then s
  else { s with buf := [], writes := s.writes ++ [s.buf.map rowFn] }

/-- `PersistenceService.emit`: fails when the service is not open; otherwise
append to the buffer and flush immediately when a positive `every_n_events`
threshold has been reached. -/
def PersistenceService.emit {ε ρ : Type} (every_n_events : ℤ) (rowFn : ε → ρ)
    (s : PersistState ε ρ) (e : ε) : Except String (PersistState ε ρ) :=
  if s.is_open = false then
    .error "PersistenceService not open. Call open() during bootstrap."
  else
    if 0 < every_n_events ∧ every_n_events ≤ (((s.buf ++ [e]).length : ℕ) : ℤ) then
      .ok (PersistenceService.flush rowFn { s with buf := s.buf ++ [e] })
    else
      .ok { s with buf := s.buf ++ [e] }

/-- `PersistenceService.close`: one final flush, then the storage handle is
released and the service marked closed. -/
def PersistenceService.close {ε ρ : Type} (rowFn : ε → ρ) (s : PersistState ε ρ) :
    PersistState ε ρ :=
  { PersistenceService.flush rowFn s with is_open := false }

/-- **C9**.  For an open service with a positive threshold: `emit` appends the
event and triggers exactly one immediate flush precisely when the buffer
length reaches `every_n_events` (the whole batch goes to the adapter in one
write call and the buffer is cleared), and does nothing else otherwise; a
flush of a nonempty buffer writes the entire batch in one call and clears the
buffer; a flush with an empty buffer writes nothing. -/
theorem C9_persistence_theorem {ε ρ : Type} (rowFn : ε → ρ) :
    (∀ (everyN : ℤ) (s : PersistState ε ρ) (e : ε), s.is_open = true → 0 < everyN →
      ((everyN ≤ ((s.buf.length + 1 : ℕ) : ℤ) →
        PersistenceService.emit everyN rowFn s e =
          .ok { s with buf := [], writes := s.writes ++ [(s.buf ++ [e]).map rowFn] }) ∧
       (¬ everyN ≤ ((s.buf.length + 1 : ℕ) : ℤ) →
        PersistenceService.emit everyN rowFn s e =
          .ok { s with buf := s.buf ++ [e] }))) ∧
    (∀ s : PersistState ε ρ, s.buf = [] → PersistenceService.flush rowFn s = s) ∧
    (∀ s : PersistState ε ρ, s.buf ≠ [] →
      PersistenceService.flush rowFn s =
        { s with buf := [], writes := s.writes ++ [s.buf.map rowFn] }) := by
  refine ⟨?_, ?_, ?_⟩
  · intro everyN s e hopen hpos
    constructor
    · intro hreach
      unfold PersistenceService.emit
      rw [if_neg (by simp [hopen])]
      rw [if_pos ⟨hpos, by simpa using hreach⟩]
      unfold PersistenceService.flush
      rw [if_neg (by simp)]
    · intro hfar
      unfold PersistenceService.emit
      rw [if_neg (by simp [hopen])]
      rw [if_neg (fun hc => hfar (by simpa using hc.2))]
  · intro s hbuf
    unfold PersistenceService.flush
    rw [if_pos (by simp [hbuf])]
  · intro s hbuf
    unfold PersistenceService.flush
    rw [if_neg (by simp [hbuf])]

/-- Witness for `C9_persistence_theorem` over natural-number events with the
identity row conversion at threshold 2. -/
theorem C9_persistence_witness :
    ((2 : ℤ) ≤ (((1 : ℕ) + 1 : ℕ) : ℤ) →
      PersistenceService.emit 2 (fun n : ℕ => n) ⟨true, [5], []⟩ 7 =
        .ok (⟨true, [], [[5, 7]]⟩ : PersistState ℕ ℕ)) ∧
    (¬ (2 : ℤ) ≤ (((0 : ℕ) + 1 : ℕ) : ℤ) →
      PersistenceService.emit 2 (fun n : ℕ => n) ⟨true, [], []⟩ 5 =
        .ok (⟨true, [5], []⟩ : PersistState ℕ ℕ)) ∧
    PersistenceService.flush (fun n : ℕ => n) (⟨true, [], [[3]]⟩ : PersistState ℕ ℕ) =
      ⟨true, [], [[3]]⟩ :=
  ⟨((C9_persistence_theorem (fun n : ℕ => n)).1 2 ⟨true, [5], []⟩ 7 rfl (by norm_num)).1,
   ((C9_persistence_theorem (fun n : ℕ => n)).1 2 ⟨true, [], []⟩ 5 rfl (by norm_num)).2,
   (C9_persistence_theorem (fun n : ℕ => n)).2.1 ⟨true, [], [[3]]⟩ rfl⟩

-- ----------------------------------------------------------------
-- JSON payload encoding (events/schema.py json_dumps and
-- persistence/service.py _event_to_row)
-- ----------------------------------------------------------------

/-- JSON values appearing in event payloads (strings, integers, null). -/
inductive JVal where
  | s (v : String)
  | n (v : ℤ)
  | null
deriving DecidableEq

/-- Escaping of one character as performed by `json.dumps` (quote, backslash,
and `\u00XX` for control characters). -/
def escChar (c : Char) : List Char :=
  if c = '"' then ['\\', '"']
  else if c = '\\' then ['\\', '\\']
  else if c.toNat < 32 then
    ['\\', 'u', '0', '0', Nat.digitChar (c.toNat / 16), Nat.digitChar (c.toNat % 16)]
  else [c]

/-- A JSON string literal with escaping. -/
def jstr (v : String) : String :=
  "\"" ++ String.mk (v.data.map escChar).join ++ "\""

/-- Little-endian decimal digits by fuel-bounded structural recursion (kept
kernel-reducible so that concrete encodings evaluate). -/
def decDigitsRev : ℕ → ℕ → List ℕ
  | 0, _ => []
  | fuel + 1, n => if n = 0 then [] else n % 10 :: decDigitsRev fuel (n / 10)

/-- Big-endian decimal digit characters (structural variant of
`natDigitsBE`). -/
def decChars (n : ℕ) : List Char :=
  ((decDigitsRev n n).map Nat.digitChar).reverse

/-- Decimal rendering of an integer (Python's `int` JSON rendering). -/
def intRepr (v : ℤ) : String :=
  if v < 0 then String.mk ('-' :: (if v.natAbs = 0 then ['0'] else decChars v.natAbs))
  else String.mk (if v.natAbs = 0 then ['0'] else decChars v.natAbs)

/-- Rendering of one JSON value. -/
def jval : JVal → String
  | .s v => jstr v
  | .n v => intRepr v
  | .null => "null"

/-- Compact object encoding with `separators=(",", ":")` — no extraneous
whitespace, keys in the order of the association list (Python dicts preserve
insertion order). -/
def encodeObjCompact (ps : List (String × JVal)) : String :=
  "\x7b" ++ String.intercalate "," (ps.map (fun p => jstr p.1 ++ ":" ++ jval p.2)) ++ "\x7d"

/-- The `payload_json` column produced by `PersistenceService._event_to_row`:
`json.dumps(e.payload, separators=(",", ":")) if e.payload else None` — no
`sort_keys`, and an empty payload dict is falsy and becomes `None`. -/
def eventToRowPayloadJson (payload : Option (List (String × JVal))) : Option String :=
  match payload with
  | none => none
  | some [] => none
  | some ps => some (encodeObjCompact ps)

/-- Lexicographic comparison of character lists by code point (the order in
which Python sorts string keys). -/
def charListLe : List Char → List Char → Bool
  | [], _ => true
  | _ :: _, [] => false
  | a :: as, b :: bs =>
    if a < b then true else if b < a then false else charListLe as bs

theorem charListLe_refl : ∀ as : List Char, charListLe as as = true := by
  intro as
  induction as with
  | nil => rfl
  | cons a as ih => simp [charListLe, lt_irrefl, ih]

theorem charListLe_cons_le {a b : Char} {as bs : List Char}
    (h : charListLe (a :: as) (b :: bs) = true) : a ≤ b := by
  by_cases hab : a < b
  · exact hab.le
  · by_cases hba : b < a
    · simp [charListLe, hab, hba] at h
    · exact le_of_not_lt hba

theorem charListLe_cons_tail {a : Char} {as bs : List Char}
    (h : charListLe (a :: as) (a :: bs) = true) : charListLe as bs = true := by
  simpa [charListLe, lt_irrefl] using h

theorem charListLe_total : ∀ as bs : List Char,
    charListLe as bs = true ∨ charListLe bs as = true := by
  intro as
  induction as with
  | nil => exact fun _ => Or.inl rfl
  | cons a as ih =>
    intro bs
    cases bs with
    | nil => exact Or.inr rfl
    | cons b bs =>
      rcases lt_trichotomy a b with h | h | h
      · left; simp [charListLe, h]
      · subst h
        rcases ih bs with h' | h'
        · left; simp [charListLe, lt_irrefl, h']
        · right; simp [charListLe, lt_irrefl, h']
      · right; simp [charListLe, h]

theorem charListLe_trans : ∀ as bs cs : List Char, charListLe as bs = true →
    charListLe bs cs = true → charListLe as cs = true := by
  intro as
  induction as with
  | nil => intro bs cs _ _; rfl
  | cons a as ih =>
    intro bs cs h1 h2
    cases bs with
    | nil => simp [charListLe] at h1
    | cons b bs =>
      cases cs with
      | nil => simp [charListLe] at h2
      | cons c cs =>
        have hab : a ≤ b := charListLe_cons_le h1
        have hbc : b ≤ c := charListLe_cons_le h2
        by_cases hac : a < c
        · simp [charListLe, hac]
        · have hca : c ≤ a := le_of_not_lt hac
          have hac' : a = c := le_antisymm (hab.trans hbc) hca
          have hab' : a = b := le_antisymm hab (hac' ▸ hbc)
          subst hab'
          have hbc' : a = c := hac'
          subst hbc'
          have t1 := charListLe_cons_tail h1
          have t2 := charListLe_cons_tail h2
          simp [charListLe, lt_irrefl, ih bs cs t1 t2]

theorem charListLe_antisymm : ∀ as bs : List Char, charListLe as bs = true →
    charListLe bs as = true → as = bs := by
  intro as
  induction as with
  | nil =>
    intro bs _ h2
    cases bs with
    | nil => rfl
    | cons b bs => simp [charListLe] at h2
  | cons a as ih =>
    intro bs h1 h2
    cases bs with
    | nil => simp [charListLe] at h1
    | cons b bs =>
      have hab : a = b := le_antisymm (charListLe_cons_le h1) (charListLe_cons_le h2)
      subst hab
      rw [ih bs (charListLe_cons_tail h1) (charListLe_cons_tail h2)]

/-- Key order used by `sort_keys=True`: code-point lexicographic order on the
key strings. -/
def keyLE (a b : String × JVal) : Prop := charListLe a.1.data b.1.data = true

instance : DecidableRel keyLE :=
  fun a b => inferInstanceAs (Decidable (charListLe a.1.data b.1.data = true))

instance : IsTotal (String × JVal) keyLE := ⟨fun a b => charListLe_total a.1.data b.1.data⟩

instance : IsTrans (String × JVal) keyLE := ⟨fun _ _ _ => charListLe_trans _ _ _⟩

/-- Strict key order: used to identify sorted duplicate-free-key lists. -/
def keyLT (a b : String × JVal) : Prop := keyLE a b ∧ a.1 ≠ b.1

instance : IsAntisymm (String × JVal) keyLT :=
  ⟨fun a b h1 h2 => by
    have h := charListLe_antisymm a.1.data b.1.data h1.1 h2.1
    exact absurd (congrArg String.mk h) h1.2⟩

/-- `events/schema.py json_dumps`: `None` stays `None`, otherwise
`json.dumps(payload, sort_keys=True, separators=(",", ":"))` — the compact
encoding of the key-sorted association list. -/
def json_dumps (payload : Option (List (String × JVal))) : Option String :=
  match payload with
  | none => none
  | some ps => some (encodeObjCompact (ps.insertionSort keyLE))

/-- **C8** (amended).  The schema encoder `json_dumps` encodes with keys
sorted and no extraneous whitespace, and is a function of the *map*: any two
association lists with the same key-value pairs (and duplicate-free keys)
encode to the identical string.  The persistence row conversion
(`_event_to_row`) also uses compact separators but does *not* sort keys: it
encodes the pairs in insertion order (deterministic only for identical
insertion-ordered maps), and maps empty payloads to `None`. -/
theorem C8_payload_encoding_theorem :
    (∀ ps : List (String × JVal),
      (ps.insertionSort keyLE).Perm ps ∧ (ps.insertionSort keyLE).Sorted keyLE ∧
      json_dumps (some ps) = some (encodeObjCompact (ps.insertionSort keyLE))) ∧
    (∀ l₁ l₂ : List (String × JVal), l₁.Perm l₂ → (l₁.map Prod.fst).Nodup →
      json_dumps (some l₁) = json_dumps (some l₂)) ∧
    (∀ ps : List (String × JVal), ps ≠ [] →
      eventToRowPayloadJson (some ps) = some (encodeObjCompact ps)) ∧
    eventToRowPayloadJson (some []) = none := by
  have hsort : ∀ l₁ l₂ : List (String × JVal), l₁.Perm l₂ → (l₁.map Prod.fst).Nodup →
      l₁.insertionSort keyLE = l₂.insertionSort keyLE := by
    intro l₁ l₂ hp hnd
    have hnd₂ : (l₂.map Prod.fst).Nodup := ((hp.map Prod.fst).nodup_iff).mp hnd
    have hperm : (l₁.insertionSort keyLE).Perm (l₂.insertionSort keyLE) :=
      ((l₁.perm_insertionSort keyLE).trans hp).trans (l₂.perm_insertionSort keyLE).symm
    have hlt : ∀ l : List (String × JVal), (l.map Prod.fst).Nodup →
        (l.insertionSort keyLE).Pairwise keyLT := by
      intro l hl
      have hs : (l.insertionSort keyLE).Pairwise keyLE := l.sorted_insertionSort keyLE
      have hnodup : ((l.insertionSort keyLE).map Prod.fst).Nodup :=
        ((List.Perm.map Prod.fst (l.perm_insertionSort keyLE)).nodup_iff).mpr hl
      have hne : (l.insertionSort keyLE).Pairwise
          (fun a b : String × JVal => a.1 ≠ b.1) :=
        List.pairwise_map.mp hnodup
      exact (hs.and hne).imp fun h => ⟨h.1, h.2⟩
    exact List.eq_of_perm_of_sorted hperm
      (hlt l₁ hnd) (hlt l₂ hnd₂)
  refine ⟨?_, ?_, ?_, rfl⟩
  · intro ps
    exact ⟨ps.perm_insertionSort keyLE, ps.sorted_insertionSort keyLE, rfl⟩
  · intro l₁ l₂ hp hnd
    simp only [json_dumps]
    rw [hsort l₁ l₂ hp hnd]
  · intro ps hps
    cases ps with
    | nil => exact absurd rfl hps
    | cons p ps => rfl

/-- **C8** counterexample to the claim as stated: the persistence row
conversion does *not* sort keys — the payload `{"b": 1, "a": 2}` is encoded
in insertion order, differs from the sorted `json_dumps` encoding, and the
two insertion orders of the same map encode to different strings. -/
theorem C8_counterexample :
    eventToRowPayloadJson (some [("b", JVal.n 1), ("a", JVal.n 2)]) =
      some "\x7b\"b\":1,\"a\":2\x7d" ∧
    eventToRowPayloadJson (some [("b", JVal.n 1), ("a", JVal.n 2)]) ≠
      json_dumps (some [("b", JVal.n 1), ("a", JVal.n 2)]) ∧
    eventToRowPayloadJson (some [("b", JVal.n 1), ("a", JVal.n 2)]) ≠
      eventToRowPayloadJson (some [("a", JVal.n 2), ("b", JVal.n 1)]) := by
  refine ⟨by decide, by decide, by decide⟩

/-- Witness for `C8_payload_encoding_theorem` at a two-key payload. -/
theorem C8_payload_encoding_witness :
    json_dumps (some [("b", JVal.n 1), ("a", JVal.n 2)]) =
      json_dumps (some [("a", JVal.n 2), ("b", JVal.n 1)]) ∧
    eventToRowPayloadJson (some [("b", JVal.n 1)]) =
      some (encodeObjCompact [("b", JVal.n 1)]) :=
  ⟨C8_payload_encoding_theorem.2.1 [("b", JVal.n 1), ("a", JVal.n 2)]
      [("a", JVal.n 2), ("b", JVal.n 1)] (by decide) (by decide),
   C8_payload_encoding_theorem.2.2.1 [("b", JVal.n 1)] (by decide)⟩

-- ----------------------------------------------------------------
-- NHPP baseline arrivals (sim/features/arrivals/models/nhpp.py)
-- ----------------------------------------------------------------

/-- `GaussianPeakCurveConfig` from `arrivals/models/nhpp.py`. -/
structure GaussianPeakCurveConfig (α : Type) where
  peak_hour : α
  spread_hours : α
  floor : α

/-- `NHPPBaselineArrivalsConfig` from `arrivals/models/nhpp.py`. -/
structure NHPPBaselineArrivalsConfig (α : Type) where
  daily_expected_intents : α
  intraday_curve : GaussianPeakCurveConfig α

/-- Python's `max` over a nonempty list (`max(shapes)`). -/
def pyMax : List α → Option α
  | [] => none
  | x :: xs => some (xs.foldl max x)

/-- `_normalize_daily_shape`: the intraday curve sampled on the mid-points of
a `grid_minutes` grid over 24 h, its maximum, and its trapezoid integral in
hours.  `spread_hours ≤ 0` and an invalid grid are configuration errors. -/
def normalizeDailyShape (K : MathKernel α) (cfg : GaussianPeakCurveConfig α)
    (grid_minutes : ℕ) : Except String (List α × α × α) :=
  if cfg.spread_hours ≤ 0 then .error "spread_hours must be > 0"
  else if grid_minutes = 0 then .error "grid_minutes must be > 0"
  else
    let n := (24 * 60) / grid_minutes
    if n = 0 then .error "invalid grid_minutes"
    else
      let shapes := (List.range n).map (fun i =>
        cfg.floor + K.exp (-(1 / 2) *
          ((((i : α) + 1 / 2) * grid_minutes / 60 - cfg.peak_hour) / cfg.spread_hours) *
          ((((i : α) + 1 / 2) * grid_minutes / 60 - cfg.peak_hour) / cfg.spread_hours)))
      match pyMax shapes with
      | none => .error "invalid grid_minutes"
      | some shape_max => .ok (shapes, shape_max, shapes.sum * ((grid_minutes : α) / 60))

/-- `_shape_at_second`: clamp the second into the day, locate the grid bucket,
clamp the index, and read the precomputed shape. -/
def shapeAtSecond [FloorRing α] (shapes : List α) (second_in_day : α)
    (grid_minutes : ℕ) : α :=
  let s := max 0 (min ((86400 : α) - 1 / 10 ^ 9) second_in_day)
  let idx := (⌊s / 60 / (grid_minutes : α)⌋).toNat
  shapes.getD (min idx (shapes.length - 1)) 0

/-- `NHPPBaselineArrivalsModel.__init__` validation: `num_days` must be
positive and `daily_expected_intents` nonnegative, else a `ValueError`. -/
def NHPPBaselineArrivalsModel.init (cfg : NHPPBaselineArrivalsConfig α)
    (num_days : ℕ) : Except String Unit :=
  if num_days = 0 then .error "num_days must be > 0"
  else if cfg.daily_expected_intents < 0 then .error "daily_expected_intents must be >= 0"
  else .ok ()

/-- The inner Lewis–Shedler thinning loop of `_run` within one day
(fuel-bounded).  `expDraw rate u` is the `rng.expovariate(rate)` draw obtained
from one uniform `u` — modelled from the spec (§4.2): the generator itself is
external.  Returns the accepted intent times, the clock, and the RNG. -/
def nhppCandidates [FloorRing α] (expDraw : α → α → α) (daily : α)
    (shapes : List α) (grid_minutes : ℕ) (integral_hours imax day_start day_end : α) :
    ℕ → α → α → Rng α → List α → Except String (List α × α × Rng α)
  | 0, _, _, _, _ => .error "thinning fuel exhausted"
  | fuel + 1, t, now, rng, acc =>
    let u := (rng.random).1
    let rng₁ := (rng.random).2
    let t_candidate := t + expDraw imax u
    if day_end ≤ t_candidate then .ok (acc, now, rng₁)
    else
      let shape_t := shapeAtSecond shapes (t_candidate - day_start) grid_minutes
      let intensity_t := daily * shape_t / integral_hours / 3600
      let u2 := (rng₁.random).1
      let rng₂ := (rng₁.random).2
      if u2 < intensity_t / imax then
        nhppCandidates expDraw daily shapes grid_minutes integral_hours imax day_start
          day_end fuel t_candidate t_candidate rng₂ (acc ++ [t_candidate])
      else
        nhppCandidates expDraw daily shapes grid_minutes integral_hours imax day_start
          day_end fuel t_candidate now rng₂ acc

/-- The per-day loop of `_run`: run the thinning loop for the day, then jump
the clock to the day boundary. -/
def nhppDays [FloorRing α] (expDraw : α → α → α) (daily : α) (shapes : List α)
    (grid_minutes : ℕ) (integral_hours imax : α) (fuel : ℕ) :
    ℕ → α → Rng α → List α → Except String (List α × α × Rng α)
  | 0, now, rng, acc => .ok (acc, now, rng)
  | d + 1, now, rng, acc =>
    match nhppCandidates expDraw daily shapes grid_minutes integral_hours imax now
        (now + 86400) fuel now now rng acc with
    | .error e => .error e
    | .ok (acc', _, rng') =>
      nhppDays expDraw daily shapes grid_minutes integral_hours imax fuel d
        (now + 86400) rng' acc'

/-- `NHPPBaselineArrivalsModel._run`, fuel-bounded: with a non-positive
`daily_expected_intents` it emits nothing and advances the clock to the
horizon; otherwise it normalizes the curve, validates the integral, and runs
the per-day thinning loop.  Returns (intent times, final clock, RNG). -/
def NHPPBaselineArrivalsModel.run [FloorRing α] (K : MathKernel α)
    (expDraw : α → α → α) (cfg : NHPPBaselineArrivalsConfig α) (num_days : ℕ)
    (grid_minutes : ℕ) (rng : Rng α) (fuel : ℕ) :
    Except String (List α × α × Rng α) :=
  if cfg.daily_expected_intents ≤ 0 then
    .ok ([], ((num_days : α) * 86400), rng)
  else
    match normalizeDailyShape K cfg.intraday_curve grid_minutes with
    | .error e => .error e
    | .ok (shapes, shape_max, integral_hours) =>
      if integral_hours ≤ 0 then .error "intraday curve integral must be > 0"
      else
        let imax := cfg.daily_expected_intents * shape_max / integral_hours / 3600
        if imax ≤ 0 then .ok ([], ((num_days : α) * 86400), rng)
        else
          nhppDays expDraw cfg.daily_expected_intents shapes grid_minutes
            integral_hours imax fuel num_days 0 rng []

/-- **C4** (amended).  With `daily_expected_intents = 0` (and a positive
horizon) the NHPP baseline model constructs successfully, produces zero
SessionIntents, and simply advances logical time to the horizon
(`num_days × 86400` seconds) without an error; a strictly *negative*
`daily_expected_intents`, however, is rejected at construction with a
`ValueError`, so only the zero case runs without raising. -/
theorem C4_nhpp_zero_rate_theorem [FloorRing α] (K : MathKernel α)
    (expDraw : α → α → α) (cfg : NHPPBaselineArrivalsConfig α)
    (num_days grid_minutes fuel : ℕ) (rng : Rng α) :
    (cfg.daily_expected_intents < 0 → 0 < num_days →
      NHPPBaselineArrivalsModel.init cfg num_days =
        .error "daily_expected_intents must be >= 0") ∧
    (cfg.daily_expected_intents = 0 → 0 < num_days →
      NHPPBaselineArrivalsModel.init cfg num_days = .ok () ∧
      NHPPBaselineArrivalsModel.run K expDraw cfg num_days grid_minutes rng fuel =
        .ok ([], ((num_days : α) * 86400), rng)) := by
  constructor
  · intro hneg hdays
    unfold NHPPBaselineArrivalsModel.init
    rw [if_neg (by omega), if_pos hneg]
  · intro hzero hdays
    constructor
    · unfold NHPPBaselineArrivalsModel.init
      rw [if_neg (by omega), if_neg (by rw [hzero]; exact lt_irrefl 0)]
    · unfold NHPPBaselineArrivalsModel.run
      rw [if_pos (le_of_eq hzero)]

/-- **C4** counterexample to the claim as stated: a strictly negative
`daily_expected_intents` does *not* run without error — construction raises a
`ValueError`. -/
theorem C4_counterexample :
    NHPPBaselineArrivalsModel.init
        (⟨-1, ⟨12, 5/2, 1/20⟩⟩ : NHPPBaselineArrivalsConfig ℚ) 1 =
      .error "daily_expected_intents must be >= 0" ∧ (-1 : ℚ) < 0 := by
  constructor
  · unfold NHPPBaselineArrivalsModel.init
    norm_num
  · norm_num

/-- Witness for `C4_nhpp_zero_rate_theorem` at a concrete zero-rate
configuration over `ℚ`. -/
theorem C4_nhpp_zero_rate_witness :
    NHPPBaselineArrivalsModel.init
        (⟨0, ⟨12, 5/2, 1/20⟩⟩ : NHPPBaselineArrivalsConfig ℚ) 1 = .ok () ∧
    NHPPBaselineArrivalsModel.run qKernel (fun _ u => u)
        (⟨0, ⟨12, 5/2, 1/20⟩⟩ : NHPPBaselineArrivalsConfig ℚ) 1 1 wRngQ 5 =
      .ok ([], (((1 : ℕ) : ℚ) * 86400), wRngQ) :=
  (C4_nhpp_zero_rate_theorem qKernel (fun _ u => u) ⟨0, ⟨12, 5/2, 1/20⟩⟩ 1 1 5 wRngQ).2
    rfl (by norm_num)

-- ----------------------------------------------------------------
-- C1: the composed run (sim/features/bootstrap/service.py) on a model of
-- the SimPy cooperative scheduler
-- ----------------------------------------------------------------

/-- `IdsService.next_id`: bump the per-prefix counter (counters live in a
dict in insertion order; a new prefix is appended). -/
def bumpCounter : List (String × ℕ) → String → ℕ × List (String × ℕ)
  | [], p => (1, [(p, 1)])
  | (q, m) :: rest, p =>
    if q = p then (m + 1, (q, m + 1) :: rest)
    else
      let r := bumpCounter rest p
      (r.1, (q, m) :: r.2)

/-- The id format `f"{prefix}_{run_id}_{n:08d}"` of `IdsService.next_id`. -/
def idFormat (p run_id : String) (n : ℕ) : String :=
  p ++ "_" ++ run_id ++ "_" ++
    String.mk (List.replicate (8 - (natDigitsBE n).length) '0' ++ natDigitsBE n)

/-- A `SessionIntent` as stored in the intent queue (timestamps as seconds of
simulation time; the bus's `publish_new` drops audience/payload for baseline
arrivals). -/
structure SIntent where
  intent_id : String
  ts : ℚ
  intent_source : Option String
  channel : Option String

/-- A persisted event row (the claim's observable is the triple
`(event_type, sim_time_s, payload)`; the remaining columns are carried for
fidelity, `ts_utc` being the fixed start date plus `sim_time_s`). -/
structure REvent where
  event_id : String
  sim_time_s : ℚ
  event_type : String
  user_id : Option String
  session_id : Option String
  intent_source : Option String
  channel : Option String
  page : Option String
  value_num : Option ℚ
  value_str : Option String
  payload : Option (List (String × JVal))

/-- The shared mutable state of one run: the logical clock (written only by
the scheduler), the single shared RNG, the id counters, the users store, the
intent queue (`simpy.Store` items), and the persistence buffer. -/
structure GState where
  now : ℚ
  rng : Rng ℚ
  ids : List (String × ℕ)
  users : UsersState ℚ
  intentQ : List SIntent
  persist : PersistState REvent REvent

/-- Emit one event through the persistence buffer (the service is opened
during bootstrap and closed only after the run, so the not-open error branch
is unreachable here and leaves the state unchanged). -/
def gsEmit (every_n : ℤ) (gs : GState) (e : REvent) : GState :=
  match PersistenceService.emit every_n id gs.persist e with
  | .ok p => { gs with persist := p }
  | .error _ => gs

mutual

/-- A cooperative process: one step runs to the next suspension point,
mutating the shared state and possibly starting child processes
(`env.process`), then reports how it suspends.  Modelled from the spec
(§4.1/§5): the SimPy kernel itself is an external collaborator. -/
inductive Proc where
  | mk : (GState → GState × List Proc × ProcRes) → Proc

/-- How a process step ends: terminated; suspended for a timed delay with a
continuation; blocked on a queue take with a continuation per item; or
aborted by an unhandled exception, which is fatal to the whole run (§4.1):
the scheduler stops and the error propagates out of `env.run`. -/
inductive ProcRes where
  | done : ProcRes
  | delay : ℚ → Proc → ProcRes
  | take : (SIntent → Proc) → ProcRes
  | crash : String → ProcRes

end

/-- Scheduler state: logical time lives in `gs.now`; `seq` is the insertion
counter used for deterministic FIFO tie-breaking; `queue` holds pending
resumptions `(due, seq, proc)`; `waiters` the FIFO of blocked queue takes;
`crashed` records the unhandled process exception (if any) that aborted the
run. -/
structure Sched where
  seq : ℕ
  queue : List (ℚ × ℕ × Proc)
  waiters : List (ℕ × (SIntent → Proc))
  gs : GState
  crashed : Option String

/-- Append processes to the run queue at the current time (in order). -/
def scheduleNow : Sched → List Proc → Sched
  | s, [] => s
  | s, p :: ps =>
    scheduleNow { s with queue := s.queue ++ [(s.gs.now, s.seq, p)], seq := s.seq + 1 } ps

/-- Match queued intents with blocked takers in FIFO order, scheduling each
resumption at the current time (a `simpy.Store` put triggers the oldest
pending get immediately). -/
def deliverIntents : ℕ → Sched → Sched
  | 0, s => s
  | fuel + 1, s =>
    match s.gs.intentQ, s.waiters with
    | i :: itl, (_, k) :: ws =>
      deliverIntents fuel
        { s with
          gs := { s.gs with intentQ := itl }
          waiters := ws
          queue := s.queue ++ [(s.gs.now, s.seq, k i)]
          seq := s.seq + 1 }
    | _, _ => s

/-- Pop the earliest-due entry, ties resolved by smallest insertion number
(FIFO), as §4.1 specifies. -/
def popMin : List (ℚ × ℕ × Proc) → Option ((ℚ × ℕ × Proc) × List (ℚ × ℕ × Proc))
  | [] => none
  | x :: xs =>
    match popMin xs with
    | none => some (x, [])
    | some (y, rest) =>
      if x.1 < y.1 ∨ (x.1 = y.1 ∧ x.2.1 ≤ y.2.1) then some (x, xs)
      else some (y, x :: rest)

/-- `run_until(horizon)`: repeatedly pop the earliest due suspension at or
before the horizon, advance the clock, run the resumed process to its next
suspension point, schedule its children and its own continuation, deliver
queued intents to blocked takers, and finally set the clock to the horizon.
A step that raises stops the scheduler at the failing event's time with the
error recorded: the exception propagates out of `env.run`. -/
def schedRun (horizon : ℚ) : ℕ → Sched → Sched
  | 0, s => { s with gs := { s.gs with now := horizon } }
  | fuel + 1, s =>
    match popMin s.queue with
    | none => { s with gs := { s.gs with now := horizon } }
    | some ((due, _, Proc.mk f), rest) =>
      if horizon < due then { s with gs := { s.gs with now := horizon } }
      else
        let s₁ : Sched := { s with queue := rest, gs := { s.gs with now := due } }
        let r := f s₁.gs
        let s₂ := scheduleNow { s₁ with gs := r.1 } r.2.1
        match r.2.2 with
        | .crash msg => { s₂ with crashed := some msg }
        | .done => schedRun horizon fuel (deliverIntents (s₂.gs.intentQ.length + 1) s₂)
        | .delay d k =>
          schedRun horizon fuel (deliverIntents (s₂.gs.intentQ.length + 1)
            { s₂ with queue := s₂.queue ++ [(due + d, s₂.seq, k)], seq := s₂.seq + 1 })
        | .take k =>
          schedRun horizon fuel (deliverIntents (s₂.gs.intentQ.length + 1)
            { s₂ with waiters := s₂.waiters ++ [(s₂.seq, k)], seq := s₂.seq + 1 })

/-- The arrivals feature config (`ArrivalsService` / `BaselineArrivalsConfig`). -/
structure ArrivalsCfgC1 where
  model : String
  daily_expected_intents : ℚ
  intraday_curve : GaussianPeakCurveConfig ℚ

/-- The per-run configuration consumed by `bootstrap_run` (config parsing and
`run_id` hash derivation are external; `run_id` is the derived literal). -/
structure SimConfig where
  run_id : String
  num_days : ℕ
  every_n_events : ℤ
  or_every_seconds : ℚ
  users : UsersConfig ℚ
  arrivals : Option ArrivalsCfgC1
  sessions : Option (SessionsConfig ℚ)
  conversion : Option (ConversionConfig ℚ)
  resolver_enabled : Bool
  grid_minutes : ℕ

/-- The external numeric collaborators of a run, fixed once per program:
transcendental kernel, the sessions inverse-CDF delay draw, the
propensity-init sampler, the seeded pseudo-random stream, and the site
graph. -/
structure ModelOracles where
  K : MathKernel ℚ
  invExpCdf : ℚ → ℚ → ℚ
  sampleProp : Rng ℚ → ℚ × Rng ℚ
  seedStream : ℤ → ℕ → ℚ
  graph : GraphLike ℚ

/-- The periodic flush process (`_periodic_flush_proc`): forever wait
`or_every_seconds` of logical time, then flush. -/
def flushProc (d : ℚ) : ℕ → Proc
  | 0 => Proc.mk fun gs => (gs, [], .done)
  | n + 1 => Proc.mk fun gs =>
    (gs, [], .delay d (Proc.mk fun gs' =>
      let gs'' := { gs' with persist := PersistenceService.flush id gs'.persist }
      match flushProc d n with
      | Proc.mk f => f gs''))

/-- The per-session collaborators of one spawned `_run_session` process in
the composed run. -/
structure SessDeps where
  run_id : String
  graph : GraphLike ℚ
  cfg : SessionsConfig ℚ
  conversion : Option (ConversionConfig ℚ)
  K : MathKernel ℚ
  invExpCdf : ℚ → ℚ → ℚ
  usersCfg : UsersConfig ℚ
  every_n : ℤ
  user_id : String
  session_id : String
  intent_source : Option String
  channel : Option String
  user_propensity : Option ℚ
  dropoff_multiplier : ℚ
  conversion_logit_shift : ℚ

/-- A session emission routed through `SessionsEventsAdapter` into the
persistence buffer.  The session's `_emit` allocates one `evt` id (which the
adapter discards) and the adapter allocates the one actually stored, so the
`evt` counter is bumped twice per session event, as in the source. -/
def sessEmitP (D : SessDeps) (gs : GState) (etype : String) (page : Option String)
    (vnum : Option ℚ) (vstr : Option String) : GState :=
  let ids₁ := (bumpCounter gs.ids "evt").2
  let r₂ := bumpCounter ids₁ "evt"
  gsEmit D.every_n { gs with ids := r₂.2 }
    ⟨idFormat "evt" D.run_id r₂.1, gs.now, etype, some D.user_id, some D.session_id,
      D.intent_source, D.channel, page, vnum, vstr, none⟩

/-- `users.mark_session_end` on the shared store (the unknown-id error is
unreachable for ids handed out by resolution). -/
def markEnd (cfg : UsersConfig ℚ) (uid : String) (now : ℚ) (gs : GState) : GState :=
  match UsersStateService.mark_session_end cfg gs.users uid now with
  | .ok us => { gs with users := us }
  | .error _ => gs

/-- Effective drop-off probability of the current page (as in the session
loop). -/
def sessDropoffP (D : SessDeps) (cur : String) : ℚ :=
  let p : ℚ := match D.graph.get_page cur with
    | some pg => pg.dropoff_p
    | none => 0
  if D.dropoff_multiplier ≠ 1 then clampMax01 (p * D.dropoff_multiplier) else p

/-- The post-loop emission of `_run_session` (`max_steps` / defensive
`ended`). -/
def sessExitEmit (D : SessDeps) (current : Option String) (steps : ℕ) (gs : GState) :
    GState :=
  match D.cfg.max_steps with
  | some m =>
    if m ≤ (steps : ℤ) then
      sessEmitP D gs "session_end" current (some (steps : ℚ)) (some "max_steps")
    else
      sessEmitP D gs "session_end" current (some (steps : ℚ)) (some "ended")
  | none => sessEmitP D gs "session_end" current (some (steps : ℚ)) (some "ended")

/-- Session-process termination: the `RealSessionRunner`, blocked on
`yield proc`, resumes at the same logical time (after already-queued
same-time events, FIFO) and applies `users.mark_session_end` with the
current clock. -/
def sessFinish (D : SessDeps) (gs : GState) : GState × List Proc × ProcRes :=
  (gs, [], .delay 0 (Proc.mk fun gz =>
    (markEnd D.usersCfg D.user_id gz.now gz, [], .done)))

/-- The `_run_session` loop as a scheduler process (the same source loop as
`runSessionLoop`, here with real `timeout` suspensions); on completion the
session runner's `mark_session_end` callback runs as its own same-time
resumption (`sessFinish`).  An unsupported `inter_page_time.dist` raises
`ValueError` inside the process, which nothing catches: it is fatal to the
whole run. -/
def sessProcLoop (D : SessDeps) : ℕ → Option String → ℕ → Proc
  | 0, _, _ => Proc.mk fun gs => (gs, [], .done)
  | fuel + 1, current, steps => Proc.mk fun gs =>
    match current with
    | none =>
      sessFinish D (sessExitEmit D none steps gs)
    | some cur =>
      if ¬ underStepCap D.cfg.max_steps steps then
        sessFinish D (sessExitEmit D (some cur) steps gs)
      else
        let steps' := steps + 1
        let gs₁ := sessEmitP D gs "page_view" (some cur) (some (steps' : ℚ)) none
        let dropoff := sessDropoffP D cur
        let u₁ := (gs₁.rng.random).1
        let gs₂ := { gs₁ with rng := (gs₁.rng.random).2 }
        if u₁ < dropoff then
          let gs₃ := sessEmitP D gs₂ "drop_off" (some cur) (some dropoff) none
          sessFinish D (sessEmitP D gs₃ "session_end" (some cur) (some (steps' : ℚ))
            (some "drop_off"))
        else
          let tail : GState → GState × List Proc × ProcRes := fun gsx =>
            match sampleInterPageDelay D.invExpCdf D.cfg.inter_page_time gsx.rng with
            | .error msg => (gsx, [], .crash msg)
            | .ok (delay_s, rng₃) =>
              let gsy := { gsx with rng := rng₃ }
              let timeout_s := D.cfg.inactivity_timeout_minutes * 60
              if 0 < timeout_s ∧ timeout_s < delay_s then
                (gsy, [], .delay timeout_s (Proc.mk fun gz =>
                  sessFinish D (sessEmitP D gz "session_end" (some cur)
                    (some (steps' : ℚ)) (some "timeout"))))
              else
                let trans : GState → GState × List Proc × ProcRes := fun gz =>
                  let tr := D.graph.next_page cur gz.rng
                  let gz₁ := { gz with rng := tr.2 }
                  match tr.1 with
                  | none =>
                    sessFinish D (sessEmitP D gz₁ "session_end" (some cur)
                      (some (steps' : ℚ)) (some "no_next_page"))
                  | some nxt =>
                    match sessProcLoop D fuel (some nxt) steps' with
                    | Proc.mk f => f gz₁
                if 0 < delay_s then (gsy, [], .delay delay_s (Proc.mk trans))
                else trans gsy
          match D.conversion with
          | none => tail gs₂
          | some ccfg =>
            let prop : ℚ := match D.user_propensity with
              | none => 1 / 2
              | some p => p
            let u₂ := (gs₂.rng.random).1
            let gs₃ := { gs₂ with rng := (gs₂.rng.random).2 }
            let dc := ConversionService.should_convert D.K ccfg prop
              D.conversion_logit_shift u₂
            if dc.1 then
              let gs₄ := sessEmitP D gs₃ "conversion" (some cur) (some dc.2) none
              sessFinish D (sessEmitP D gs₄ "session_end" (some cur)
                (some (steps' : ℚ)) (some "conversion"))
            else tail gs₃

/-- `SessionsService.spawn` of one session at the configured entry page:
`session_start` then the loop. -/
def sessStartProc (D : SessDeps) (fuel : ℕ) : Proc :=
  Proc.mk fun gs =>
    let gs₁ := sessEmitP D gs "session_start" (some D.cfg.entry_page) none none
    match sessProcLoop D fuel (some D.cfg.entry_page) 0 with
    | Proc.mk f => f gs₁

/-- The collaborators of `IntentResolverService` inside the composed run. -/
structure ResolverDeps where
  run_id : String
  enabled : Bool
  usersCfg : UsersConfig ℚ
  K : MathKernel ℚ
  sampleProp : Rng ℚ → ℚ × Rng ℚ
  every_n : ℤ
  sessions : Option (SessionsConfig ℚ)
  conversion : Option (ConversionConfig ℚ)
  graph : GraphLike ℚ
  invExpCdf : ℚ → ℚ → ℚ
  sessFuel : ℕ

/-- One emission through the bootstrap's `ResolverEventSink` (which stores
`intent_id` in the payload and allocates the event id). -/
def sinkEmit (R : ResolverDeps) (gs : GState) (etype : String)
    (uid sid isrc ch : Option String) (payload : Option (List (String × JVal))) :
    GState :=
  let r := bumpCounter gs.ids "evt"
  gsEmit R.every_n { gs with ids := r.2 }
    ⟨idFormat "evt" R.run_id r.1, gs.now, etype, uid, sid, isrc, ch, none, none, none,
      payload⟩

/-- `NoopSessionRunner._run` (used when no site graph / sessions section is
configured): a bare `session_end`, the user-store update, one zero delay. -/
def noopSessionProc (R : ResolverDeps) (uid sid : String) (intent : SIntent) : Proc :=
  Proc.mk fun gs =>
    let gs₁ := sinkEmit R gs "session_end" (some uid) (some sid) intent.intent_source
      intent.channel (some [("intent_id", JVal.s intent.intent_id)])
    let gs₂ := markEnd R.usersCfg uid intent.ts gs₁
    (gs₂, [], .delay 0 (Proc.mk fun g => (g, [], .done)))

/-- `RealSessionRunner._run`: read the user's propensity and discovery state,
spawn the session walk, and (on its completion) update the user store. -/
def realSessionProc (R : ResolverDeps) (scfg : SessionsConfig ℚ) (uid sid : String)
    (intent : SIntent) : Proc :=
  Proc.mk fun gs =>
    let u? := gs.users.users.find? (fun u => u.user_id == uid)
    let prop : ℚ := match u? with
      | some u => u.propensity
      | none => 1 / 2
    let is_disc : Bool := match u? with
      | some u => u.discovery_mode
      | none => false
    let dm : ℚ := if is_disc && R.usersCfg.discovery_mode.enabled then
        R.usersCfg.discovery_mode.dropoff_multiplier else 1
    let ls : ℚ := if is_disc && R.usersCfg.discovery_mode.enabled then
        R.usersCfg.discovery_mode.conversion_logit_shift else 0
    let D : SessDeps := ⟨R.run_id, R.graph, scfg, R.conversion, R.K, R.invExpCdf,
      R.usersCfg, R.every_n, uid, sid, intent.intent_source, intent.channel,
      some prop, dm, ls⟩
    match sessStartProc D R.sessFuel with
    | Proc.mk f => f gs

/-- `IntentResolverService._run_one`: when enabled, emit the observed intent,
resolve a user (emitting `user_created` when new), allocate a session id,
emit `session_start`, and start the session runner process; when disabled,
silently discard.  The third component is an unhandled exception: the users
service's `ValueError` (unsupported `users.selection.mode`) escapes
`_run_loop` and is fatal to the whole run. -/
def resolverRunOne (R : ResolverDeps) (intent : SIntent) (gs : GState) :
    GState × List Proc × Option String :=
  if ¬ R.enabled then (gs, [], none)
  else
    let gs₁ := sinkEmit R gs "session_intent" none none intent.intent_source
      intent.channel (some [("intent_id", JVal.s intent.intent_id)])
    match UsersStateService.get_or_create_user_for_intent R.K R.usersCfg R.sampleProp
        gs₁.users intent.ts gs₁.rng with
    | .error msg => (gs₁, [], some msg)
    | .ok ((u, is_new), users', rng') =>
      let gs₂ := { gs₁ with users := users', rng := rng' }
      let gs₃ := if is_new then
          sinkEmit R gs₂ "user_created" (some u.user_id) none intent.intent_source
            intent.channel (some [("intent_id", JVal.s intent.intent_id)])
        else gs₂
      let r := bumpCounter gs₃.ids "session"
      let sid := idFormat "session" R.run_id r.1
      let gs₄ := sinkEmit R { gs₃ with ids := r.2 } "session_start" (some u.user_id)
        (some sid) intent.intent_source intent.channel
        (some [("intent_id", JVal.s intent.intent_id)])
      match R.sessions with
      | none => (gs₄, [noopSessionProc R u.user_id sid intent], none)
      | some scfg => (gs₄, [realSessionProc R scfg u.user_id sid intent], none)

/-- The resolver consumer loop in process form: block on a queue take,
process the intent, repeat; an exception escaping `_run_one` kills the loop
and the run. -/
def resolverHandle (R : ResolverDeps) : ℕ → SIntent → Proc
  | 0, _ => Proc.mk fun gs => (gs, [], .done)
  | n + 1, intent => Proc.mk fun gs =>
    match resolverRunOne R intent gs with
    | (gs', procs, some msg) => (gs', procs, .crash msg)
    | (gs', procs, none) => (gs', procs, .take (resolverHandle R n))

/-- `IntentResolverService.start`. -/
def resolverProc (R : ResolverDeps) (n : ℕ) : Proc :=
  Proc.mk fun gs => (gs, [], .take (resolverHandle R n))

/-- `NHPPBaselineArrivalsModel._run` as wired by `bootstrap_run`: a
non-positive `daily_expected_intents` just sleeps to the horizon, and so does
a non-positive maximum intensity; a curve-normalization `ValueError`
(`spread_hours <= 0`, bad grid) and a non-positive curve integral are fatal
to the run.  On the positive-rate thinning path the first candidate draw
calls `self.rng.expovariate(...)` — but `bootstrap_run` wires in
`sim/core/rng.py`'s `RNG`, which has no `expovariate` method, so the process
raises `AttributeError` before any yield and before any intent can be
published (the accepted-intent branch would likewise call
`self.ids.new_id("intent")`, absent from `IdsService`).  The error escapes
`env.run` and aborts the run. -/
def arrivalsProc (K : MathKernel ℚ) (a : ArrivalsCfgC1)
    (num_days grid_minutes : ℕ) : Proc :=
  Proc.mk fun gs =>
    if a.daily_expected_intents ≤ 0 then
      (gs, [], .delay ((num_days : ℚ) * 86400) (Proc.mk fun g => (g, [], .done)))
    else
      match normalizeDailyShape K a.intraday_curve grid_minutes with
      | .error msg => (gs, [], .crash msg)
      | .ok (_, shape_max, integral_hours) =>
        if integral_hours ≤ 0 then
          (gs, [], .crash "intraday curve integral must be > 0")
        else
          let imax := a.daily_expected_intents * shape_max / integral_hours / 3600
          if imax ≤ 0 then
            (gs, [], .delay ((num_days : ℚ) * 86400) (Proc.mk fun g => (g, [], .done)))
          else
            (gs, [],
              .crash "AttributeError: RNG object has no attribute expovariate")

/-- `ArrivalsService.__init__` → `_build_model` → `NHPPBaselineArrivalsModel.__init__`,
performed during bootstrap before the lifecycle block: an unsupported model
name, `num_days <= 0` or a negative rate raise `ValueError` there, aborting
`bootstrap_run` before `run_started` is emitted (and before the
`try/finally` that closes persistence is entered). -/
def arrivalsBuild (cfg : SimConfig) : Except String (Option ArrivalsCfgC1) :=
  match cfg.arrivals with
  | none => .ok none
  | some a =>
    if pyLower (pyStrip a.model) = "nhpp" then
      if cfg.num_days = 0 then .error "num_days must be > 0"
      else if a.daily_expected_intents < 0 then
        .error "daily_expected_intents must be >= 0"
      else .ok (some a)
    else .error "Unsupported arrivals.baseline_arrivals.model"

/-- A lifecycle event (`run_started` / `run_finished`) emitted directly to
the persistence buffer by `bootstrap_run`. -/
def emitLifecycle (every_n : ℤ) (run_id : String) (etype : String) (gs : GState) :
    GState :=
  let r := bumpCounter gs.ids "evt"
  gsEmit every_n { gs with ids := r.2 }
    ⟨idFormat "evt" run_id r.1, gs.now, etype, none, none, none, none, none, none,
      none, none⟩

/-- `bootstrap_run`: build the single seeded RNG, open persistence, start the
periodic flush, the resolver and (when configured) the arrivals process (its
construction errors abort bootstrap before anything is written), then — in a
`try/finally` — emit `run_started`, run the scheduler to the horizon, emit
`run_finished` and flush; the `finally` closes persistence (one final
shutdown flush) even when the run crashed, but a crash skips `run_finished`
and the bootstrap-finish flush.  The second component is the unhandled
exception, if any. -/
def runSim (M : ModelOracles) (cfg : SimConfig) (seed : ℤ) (fuel : ℕ) :
    GState × Option String :=
  let rng : Rng ℚ := ⟨M.seedStream seed, 0⟩
  let gs0 : GState := ⟨0, rng, [], ⟨[], 0⟩, [], ⟨true, [], []⟩⟩
  let R : ResolverDeps := ⟨cfg.run_id, cfg.resolver_enabled, cfg.users, M.K,
    M.sampleProp, cfg.every_n_events, cfg.sessions, cfg.conversion, M.graph,
    M.invExpCdf, fuel⟩
  match arrivalsBuild cfg with
  | .error msg => (gs0, some msg)
  | .ok arr =>
    let procs : List Proc :=
      [flushProc cfg.or_every_seconds fuel, resolverProc R fuel] ++
        (match arr with
         | some a => [arrivalsProc M.K a cfg.num_days cfg.grid_minutes]
         | none => [])
    let s0 : Sched := scheduleNow ⟨0, [], [], gs0, none⟩ procs
    let gsStart := emitLifecycle cfg.every_n_events cfg.run_id "run_started" s0.gs
    let s1 : Sched := { s0 with gs := gsStart }
    let s2 := schedRun ((cfg.num_days : ℚ) * 86400) fuel s1
    match s2.crashed with
    | some msg =>
      ({ s2.gs with persist := PersistenceService.close id s2.gs.persist }, some msg)
    | none =>
      let gs1 := emitLifecycle cfg.every_n_events cfg.run_id "run_finished" s2.gs
      let gs2 := { gs1 with persist := PersistenceService.flush id gs1.persist }
      ({ gs2 with persist := PersistenceService.close id gs2.persist }, none)

/-- The persisted event stream of a run, projected to the claim's observable
triples `(event_type, sim_time_s, payload)` in write order. -/
def runStream (M : ModelOracles) (cfg : SimConfig) (seed : ℤ) (fuel : ℕ) :
    List (String × ℚ × Option (List (String × JVal))) :=
  ((runSim M cfg seed fuel).1.persist.writes.flatten).map
    (fun e => (e.event_type, e.sim_time_s, e.payload))

/-- **C1**.  Determinism: the full outcome of a run — the final state
together with the unhandled exception, if any, and in particular the ordered
sequence of persisted `(event_type, sim_time_s, payload)` triples — is a
function of `(seed, config)` alone: for the fixed program (its external
oracles are fixed once), two executions with the same seed and the same
configuration agree on both.  All stochastic decisions consume `gs.rng`, the
single shared seeded stream, in the order fixed by the deterministic
scheduler (`popMin` with FIFO tie-breaking), and fatal errors (unsupported
`users.selection.mode` or `inter_page_time.dist`, curve errors, and the
positive-rate arrivals path's missing `expovariate`) abort both runs at the
same point. -/
theorem C1_determinism_theorem (M : ModelOracles) (fuel : ℕ)
    (seed₁ seed₂ : ℤ) (cfg₁ cfg₂ : SimConfig)
    (hseed : seed₁ = seed₂) (hcfg : cfg₁ = cfg₂) :
    runSim M cfg₁ seed₁ fuel = runSim M cfg₂ seed₂ fuel ∧
      runStream M cfg₁ seed₁ fuel = runStream M cfg₂ seed₂ fuel := by
  rw [hseed, hcfg]; exact ⟨rfl, rfl⟩

/-- Concrete oracle bundle for exercising the composed run. -/
def wOracles : ModelOracles :=
  ⟨qKernel, fun _ _ => 1, fun r => (1 / 2, r), fun _ _ => 0, wGraphEnd⟩

/-- Concrete run configuration for exercising the composed run. -/
def wSimCfg : SimConfig :=
  ⟨"r0", 1, 1, 60, wCfg0, none, none, none, true, 30⟩

/-- Witness for C1 at a concrete seed and configuration. -/
theorem C1_determinism_witness :
    (5 : ℤ) = 5 ∧ wSimCfg = wSimCfg ∧
      runSim wOracles wSimCfg 5 3 = runSim wOracles wSimCfg 5 3 ∧
      runStream wOracles wSimCfg 5 3 = runStream wOracles wSimCfg 5 3 :=
  ⟨rfl, rfl, C1_determinism_theorem wOracles 3 5 5 wSimCfg wSimCfg rfl rfl⟩

end Sim
